import Mathlib

/-!
# A virtual file system inside one blob file (`src/vfs.cpp`)

Shallow embedding of `TestTask::IVFS` and proofs about it.

* A `File` is the C++ `struct File`; the engine allocates them with `new`, so the
  model keeps a `heap` of `File`s and a handle (`File *`) is `Option Nat`:
  `none` is `nullptr`, `some p` the `p`-th allocated object.  The engine never frees
  a `File` before its destructor, so every pointer it hands out stays valid; a
  `some p` with no object behind it is left alone by every call.
* `nameMap` is the `std::map<std::string, File *>`: a list of pairs kept in key
  order, whose values may be `nullptr` (`operator[]` default-inserts them).
* `streamToBlob` is the `std::fstream` over the blob file.  A file stream has one
  joint position for reading and writing: `seekg` and `seekp` both move it, `read`
  and `write` both start at it and advance it (the source uses variable-length
  arrays with initialisers, a GCC extension, so the library is libstdc++, which
  keeps the position when a `write` directly follows a `read`).  Its error state
  is sticky: a `read` that obtains fewer bytes than asked sets `eofbit|failbit`,
  the program never calls `clear()`, and on a stream whose `failbit` is set `seekg`,
  `seekp`, `read` and `write` do nothing and `tellg` returns `-1`.  A `seekg` or `seekp`
  to a `size_t` of `2 ^ 63` or more is a seek to a negative `std::streamoff`: it fails
  and sets `failbit` too.
* `size_t` is 64 bits wide; sums and products of `size_t` are taken modulo `2 ^ 64`.
* Bytes are natural numbers.  A caller's buffer is the list of its bytes; `Write`
  takes the `len` bytes it is to write, `Read` returns the buffer as it is afterwards.
* The bytes of an uninitialised local array are a parameter (`junk`) of the call.
-/

namespace TestTask

/-- Number of values of a `size_t`. -/
def SIZE_MOD : Nat := 2 ^ 64

/-- Number of non-negative values of a `std::streamoff` (a signed 64-bit integer). -/
def OFF_LIMIT : Nat := 2 ^ 63

/-- A file name: the bytes of a `std::string`. -/
abbrev Name := List Nat

/-- A `File *`: `none` is `nullptr`, `some p` is the `p`-th object made by `new File`. -/
abbrev Handle := Option Nat

/-- The C++ `struct File` (lines 15-24). -/
structure File where
  beginning : Nat
  actSize : Nat
  maxSize : Nat
  isOpenForReading : Bool
  isOpenForWriting : Bool
  deriving DecidableEq

/-! ## The blob stream -/

/-- State of `std::fstream streamToBlob`: the bytes of the file it is attached to,
the joint file position, and whether `failbit` is set. -/
structure FStream where
  content : List Nat
  pos : Nat
  failed : Bool
  deriving DecidableEq

/-- A buffer of `n` zero bytes, as in `char endBuff[n] = {0}`. -/
def zeros (n : Nat) : List Nat :=
  List.replicate n 0

/-- Bytes of a file after `data` has been written at position `p`; a write that
starts beyond the end leaves a hole of zero bytes. -/
def overwrite (c : List Nat) (p : Nat) (data : List Nat) : List Nat :=
  c.take p ++ zeros (p - c.length) ++ data ++ c.drop (p + data.length)

namespace FStream

/-- The calls `seekg(p)` and `seekp(p)` with `p` a `size_t`: both move the joint position;
nothing happens on a failed stream.  The argument is converted to `std::streampos`, whose
offset is a signed 64-bit `std::streamoff`: a `p` of `2 ^ 63` or more becomes a negative
offset, the seek fails and sets `failbit`.  (A file system may refuse smaller offsets
too; the blob is taken to lie on one that allows every non-negative offset.) -/
def seek (st : FStream) (p : Nat) : FStream :=
  if st.failed then st
  else if OFF_LIMIT ≤ p then { st with failed := true }
  else { st with pos := p }

/-- The call `seekg(0, std::ios::end)`. -/
def seekEnd (st : FStream) : FStream :=
  if st.failed then st else { st with pos := st.content.length }

/-- The call `tellg()` converted to `size_t`: the position, or `-1` (all bits set) on a
failed stream. -/
def tell (st : FStream) : Nat :=
  if st.failed then SIZE_MOD - 1 else st.pos

/-- The call `write(buf, n)` with `data` the `n` bytes of `buf`: written at the joint
position, which advances; nothing is written on a failed stream, and a write of
no bytes does not touch the file. -/
def write (st : FStream) (data : List Nat) : FStream :=
  if st.failed then st
  else if data.isEmpty then st
  else { st with content := overwrite st.content st.pos data, pos := st.pos + data.length }

/-- The call `read(buf, n)`: the bytes obtained (at most `n`, fewer when the end of the
file comes first, none on a failed stream).  A short read sets `eofbit|failbit`. -/
def read (st : FStream) (n : Nat) : FStream × List Nat :=
  if st.failed then (st, [])
  else
    let got := (st.content.drop st.pos).take n
    ({ st with pos := st.pos + got.length, failed := got.length != n }, got)

end FStream

/-! ## The name map -/

/-- Comparison of `std::string` keys: lexicographic on bytes, a proper prefix first. -/
def nameLt : Name → Name → Bool
  | [], [] => false
  | [], _ :: _ => true
  | _ :: _, [] => false
  | a :: as, b :: bs => a < b || (a == b && nameLt as bs)

/-- The `std::map<std::string, File *>`, as its entries in key order. -/
abbrev NameMap := List (Name × Handle)

/-- The keys of a map are strictly increasing, as in every `std::map`. -/
def KeysOrdered (m : NameMap) : Prop :=
  m.Pairwise fun a b => nameLt a.1 b.1 = true

namespace NameMap

/-- Value stored under a key, if the key is present (`std::map::find`). -/
def find (m : NameMap) (k : Name) : Option Handle :=
  match m with
  | [] => none
  | (k', v) :: rest => if k' = k then some v else find rest k

/-- Assignment `m[k] = v`: replaces the value of an existing key, otherwise inserts
the entry at its place in key order. -/
def assign (m : NameMap) (k : Name) (v : Handle) : NameMap :=
  match m with
  | [] => [(k, v)]
  | (k', v') :: rest =>
    if k' = k then (k, v) :: rest
    else if nameLt k k' then (k, v) :: (k', v') :: rest
    else (k', v') :: assign rest k v

/-- Evaluation of `m[k]` as an rvalue: the stored pointer, after inserting a
`nullptr` entry when the key was missing. -/
def index (m : NameMap) (k : Name) : NameMap × Handle :=
  match m.find k with
  | some v => (m, v)
  | none => (m.assign k none, none)

end NameMap

/-! ## The engine -/

/-- State of a `TestTask::IVFS` object (fields at lines 230-235) with the `File`
objects it has allocated. -/
structure IVFS where
  heap : List File
  nameMap : NameMap
  streamToBlob : FStream
  blobSize : Nat
  deriving DecidableEq

namespace IVFS

/-- The engine constructed when neither the map file nor the blob file exists. -/
def empty : IVFS :=
  { heap := [], nameMap := [], streamToBlob := { content := [], pos := 0, failed := false },
    blobSize := 0 }

/-- The method `File *Open(const char *name)` (lines 33-46): the new state and the
returned pointer. -/
def Open (s : IVFS) (name : Name) : IVFS × Handle :=
  let (m, v) := s.nameMap.index name
  let s1 := { s with nameMap := m }
  match v with
  | none => (s1, none)
  | some p =>
    match s1.heap[p]? with
    | none => (s1, some p)
    | some f =>
      if f.isOpenForReading then (s1, some p)
      else ({ s1 with heap := s1.heap.set p { f with isOpenForReading := true } }, some p)

/-- The method `File *Create(const char *name)` (lines 53-77): the new state and the
returned pointer. -/
def Create (s : IVFS) (name : Name) : IVFS × Handle :=
  let (m, v) := s.nameMap.index name
  let s1 := { s with nameMap := m }
  match v with
  | some p =>
    match s1.heap[p]? with
    | none => (s1, some p)
    | some f =>
      if f.isOpenForWriting then (s1, some p)
      else ({ s1 with heap := s1.heap.set p { f with isOpenForWriting := true } }, some p)
  | none =>
    let p := s1.heap.length
    let f : File := { beginning := s1.blobSize, actSize := 0, maxSize := 4096,
                      isOpenForReading := false, isOpenForWriting := false }
    let st := s1.streamToBlob.write (zeros 4096)
    let f := { f with isOpenForWriting := true }
    ({ heap := s1.heap ++ [f], nameMap := m.assign name (some p), streamToBlob := st,
       blobSize := (s1.blobSize + 4096) % SIZE_MOD }, some p)

/-- The method `size_t Read(File *f, char *buff, size_t len)` (lines 82-92): the new state, the
caller's buffer afterwards, and the returned count. -/
def Read (s : IVFS) (f : Handle) (buff : List Nat) (len : Nat) : IVFS × List Nat × Nat :=
  match f with
  | none => (s, buff, 0)
  | some p =>
    match s.heap[p]? with
    | none => (s, buff, 0)
    | some file =>
      if !file.isOpenForReading then (s, buff, 0)
      else
        let st := s.streamToBlob.seek file.beginning
        let (st, got) := st.read (min len file.actSize)
        ({ s with streamToBlob := st }, got ++ buff.drop got.length, got.length)

/-- The method `size_t Write(File *f, char *buff, size_t len)` (lines 99-128), with `buff` the
`len` bytes to write.  `junk i` is the indeterminate initial value of byte `i` of
the local array `buffRead`. -/
def Write (s : IVFS) (f : Handle) (buff : List Nat) (junk : Nat → Nat) : IVFS × Nat :=
  let len := buff.length
  match f with
  | none => (s, 0)
  | some p =>
    match s.heap[p]? with
    | none => (s, 0)
    | some file =>
      if !file.isOpenForWriting then (s, 0)
      else if (file.actSize + len) % SIZE_MOD ≤ file.maxSize then
        let st := (s.streamToBlob.seek file.beginning).write buff
        ({ s with streamToBlob := st,
                  heap := s.heap.set p { file with actSize := (file.actSize + len) % SIZE_MOD } },
         len)
      else
        let (s1, buffRead, _) := Read s (some p) ((List.range file.actSize).map junk) file.actSize
        let st := (s1.streamToBlob.write buffRead).write buff
        let maxSize := max ((len + file.actSize) % SIZE_MOD) (file.maxSize * 2 % SIZE_MOD)
        let actSize := (file.actSize + len) % SIZE_MOD
        let st := st.write (zeros (maxSize - actSize))
        let st := st.seekEnd
        ({ s1 with streamToBlob := st,
                   heap := s1.heap.set p { file with beginning := s.blobSize, maxSize := maxSize,
                                                     actSize := actSize },
                   blobSize := st.tell },
         len)

/-- The method `void Close(File *f)` (lines 133-145). -/
def Close (s : IVFS) (f : Handle) : IVFS :=
  match f with
  | none => s
  | some p =>
    match s.heap[p]? with
    | none => s
    | some file =>
      let file := if file.isOpenForWriting then { file with isOpenForWriting := false } else file
      let file := if file.isOpenForReading then { file with isOpenForReading := false } else file
      { s with heap := s.heap.set p file }

/-! ## Persistence of the name map -/

/-- The eight bytes of a `size_t` in memory, least significant first. -/
def encodeWord (n : Nat) : List Nat :=
  (List.range 8).map fun i => n / 256 ^ i % 256

/-- The `size_t` whose bytes in memory are `bs`, least significant first. -/
def decodeWord (bs : List Nat) : Nat :=
  bs.foldr (fun b acc => b % 256 + 256 * acc) 0

/-- The lines 187-192 for one entry of the map; `none` when the entry's pointer
cannot be dereferenced. -/
def encodeEntry (heap : List File) (e : Name × Handle) : Option (List Nat) :=
  match e.2 with
  | none => none
  | some p =>
    match heap[p]? with
    | none => none
    | some f =>
      some (encodeWord e.1.length ++ e.1 ++ encodeWord f.beginning ++ encodeWord f.actSize
        ++ encodeWord f.maxSize)

/-- The loop of lines 186-193 over the entries in key order. -/
def encodeEntries (heap : List File) : NameMap → Option (List Nat)
  | [] => some []
  | e :: rest =>
    match encodeEntry heap e, encodeEntries heap rest with
    | some a, some b => some (a ++ b)
    | _, _ => none

/-- The method `void WriteMap()` (lines 174-197): the bytes of the map file afterwards, given
its bytes `old` before; `none` when a null pointer is dereferenced. -/
def WriteMap (s : IVFS) (old : List Nat) : Option (List Nat) :=
  let numberOfFiles := s.nameMap.length
  if numberOfFiles = 0 then some old
  else
    match encodeEntries s.heap s.nameMap with
    | none => none
    | some body => some (encodeWord numberOfFiles ++ body)

/-- The body of the loop of `GetMap` (lines 208-218), `n` times, on the remaining
bytes `src` of the map file.  `none` when the file ends inside an entry (the source
then goes on with stale or indeterminate locals, which is not modelled). -/
def getEntries : Nat → List Nat → List File → NameMap → Option (List File × NameMap)
  | 0, _, heap, m => some (heap, m)
  | n + 1, src, heap, m =>
    if src.length < 8 then none
    else
      let stringLen := decodeWord (src.take 8)
      let src := src.drop 8
      if src.length < stringLen then none
      else
        let buf := src.take stringLen
        let name := buf.takeWhile (fun b => b != 0)
        let src := src.drop stringLen
        if src.length < 24 then none
        else
          let beginning := decodeWord (src.take 8)
          let actSize := decodeWord ((src.drop 8).take 8)
          let maxSize := decodeWord ((src.drop 16).take 8)
          let f : File := { beginning := beginning, actSize := actSize, maxSize := maxSize,
                            isOpenForReading := false, isOpenForWriting := false }
          getEntries n (src.drop 24) (heap ++ [f]) (m.assign name (some heap.length))

/-- The method `std::map<std::string, File *> GetMap()` (lines 200-222) on a freshly
constructed object, `src` being the bytes of the map file (empty when the file
does not exist): the `File`s allocated and the map.  The loop counter is an
`int`, so a count of `2 ^ 31` or more is outside defined behaviour. -/
def GetMap (src : List Nat) : Option (List File × NameMap) :=
  let numberOfFiles := decodeWord (src.take 8)
  if numberOfFiles = 0 then some ([], [])
  else if src.length < 8 then none
  else if 2 ^ 31 ≤ numberOfFiles then none
  else getEntries numberOfFiles (src.drop 8) [] []

/-- The constructor `IVFS()` (lines 149-158) on the bytes of the map file and of the
blob file (empty when absent). -/
def construct (mapFile blobFile : List Nat) : Option IVFS :=
  match GetMap mapFile with
  | none => none
  | some (heap, m) =>
    let st : FStream := { content := blobFile, pos := 0, failed := false }
    let st := st.seekEnd
    some { heap := heap, nameMap := m, streamToBlob := st, blobSize := st.tell }

/-! ## Observations and call sequences -/

/-- The pointer stored under `name`, `none` when the key is missing or holds `nullptr`. -/
def lookup (s : IVFS) (name : Name) : Handle :=
  (s.nameMap.find name).join

/-- The `File` a handle points to. -/
def record (s : IVFS) (h : Handle) : Option File :=
  h.bind fun p => s.heap[p]?

/-- One call of the public interface. -/
inductive Call where
  | Open (name : Name)
  | Create (name : Name)
  | Read (f : Handle) (buff : List Nat) (len : Nat)
  | Write (f : Handle) (buff : List Nat) (junk : Nat → Nat)
  | Close (f : Handle)

/-- State after one call. -/
def step (s : IVFS) : Call → IVFS
  | .Open name => (s.Open name).1
  | .Create name => (s.Create name).1
  | .Read f buff len => (s.Read f buff len).1
  | .Write f buff junk => (s.Write f buff junk).1
  | .Close f => s.Close f

/-- State after a sequence of calls. -/
def run (s : IVFS) (calls : List Call) : IVFS :=
  calls.foldl step s

/-- The record a map entry stands for, as read back from a saved map: the fields of
the `File` it points to, with both flags cleared. -/
def savedRecord (heap : List File) (e : Name × Handle) : Name × Option File :=
  (e.1, (e.2.bind fun p => heap[p]?).map fun f =>
    { f with isOpenForReading := false, isOpenForWriting := false })

/-- The record a map entry stands for. -/
def liveRecord (heap : List File) (e : Name × Handle) : Name × Option File :=
  (e.1, e.2.bind fun p => heap[p]?)

/-- An entry that `WriteMap` can save and `GetMap` can read back: the name has no NUL
byte and its length fits a `size_t`, the pointer leads to a `File`, whose fields fit a
`size_t`. -/
def Savable (heap : List File) (e : Name × Handle) : Prop :=
  (∀ b ∈ e.1, b ≠ 0) ∧ e.1.length < SIZE_MOD ∧
    ∃ p f, e.2 = some p ∧ heap[p]? = some f ∧
      f.beginning < SIZE_MOD ∧ f.actSize < SIZE_MOD ∧ f.maxSize < SIZE_MOD

/-- An engine holding two files `a` and `bc`, used to instantiate statements. -/
def twoFiles : IVFS :=
  { heap := [⟨0, 3, 4096, false, true⟩, ⟨4096, 0, 4096, true, false⟩],
    nameMap := [([97], some 0), ([98, 99], some 1)],
    streamToBlob := { content := [1, 2, 3] ++ zeros 8189, pos := 8192, failed := false },
    blobSize := 8192 }

/-- An engine holding one file of capacity 4 at offset 1 of a six-byte blob, used to
instantiate statements. -/
def smallFile : IVFS :=
  { heap := [⟨1, 0, 4, false, true⟩],
    nameMap := [([97], some 0)],
    streamToBlob := { content := [1, 2, 3, 4, 5, 6], pos := 6, failed := false },
    blobSize := 6 }

/-- A map file with one entry: the name `a` with offset 0, size `2^64 - 2` and capacity
4096. -/
def hugeSizeMap : List Nat :=
  [1, 0, 0, 0, 0, 0, 0, 0,
   1, 0, 0, 0, 0, 0, 0, 0, 97,
   0, 0, 0, 0, 0, 0, 0, 0,
   254, 255, 255, 255, 255, 255, 255, 255,
   0, 16, 0, 0, 0, 0, 0, 0]

/-- The engine constructed from the map file `hugeSizeMap` and a blob file of 4096 zero
bytes. -/
def hugeSizeEngine : IVFS :=
  { heap := [⟨0, 18446744073709551614, 4096, false, false⟩],
    nameMap := [([97], some 0)],
    streamToBlob := { content := zeros 4096, pos := 4096, failed := false },
    blobSize := 4096 }

/-- Every record's size is at most its capacity. -/
def SizeWithinCapacity (s : IVFS) : Prop :=
  ∀ (p : Nat) (f : File), s.heap[p]? = some f → f.actSize ≤ f.maxSize

/-- An engine holding one file `a` of three bytes, open for reading and writing, used to
instantiate statements. -/
def openFile : IVFS :=
  { heap := [⟨0, 3, 4096, true, true⟩],
    nameMap := [([97], some 0)],
    streamToBlob := { content := [1, 2, 3] ++ zeros 4093, pos := 4096, failed := false },
    blobSize := 4096 }

end IVFS

/-! ## Buffers and the stream -/

@[simp] theorem length_zeros (n : Nat) : (zeros n).length = n := by
  simp [zeros]

theorem zeros_eq_nil_iff (n : Nat) : zeros n = [] ↔ n = 0 := by
  cases n <;> simp [zeros, List.replicate]

theorem drop_zeros (n k : Nat) : (zeros n).drop k = zeros (n - k) := by
  simp [zeros]

theorem take_zeros (n k : Nat) : (zeros n).take k = zeros (min k n) := by
  simp [zeros]

theorem zeros_zero : zeros 0 = [] := rfl

theorem overwrite_within (c : List Nat) (p : Nat) (d : List Nat) (h : p ≤ c.length) :
    overwrite c p d = c.take p ++ d ++ c.drop (p + d.length) := by
  have h0 : p - c.length = 0 := by omega
  simp [overwrite, h0, zeros]

theorem overwrite_length (c : List Nat) (p : Nat) (d : List Nat) :
    (overwrite c p d).length = max c.length (p + d.length) := by
  simp only [overwrite, List.length_append, List.length_take, length_zeros, List.length_drop]
  omega

namespace FStream

theorem seek_good (st : FStream) (p : Nat) (hf : st.failed = false) (hp : p < OFF_LIMIT) :
    st.seek p = ⟨st.content, p, false⟩ := by
  have h : ¬ OFF_LIMIT ≤ p := by omega
  cases st
  simp_all [seek]

theorem seek_beyond (st : FStream) (p : Nat) (hf : st.failed = false) (hp : OFF_LIMIT ≤ p) :
    st.seek p = ⟨st.content, st.pos, true⟩ := by
  cases st
  simp_all [seek]

theorem seekEnd_good (st : FStream) (hf : st.failed = false) :
    st.seekEnd = ⟨st.content, st.content.length, false⟩ := by
  cases st
  simp_all [seekEnd]

theorem write_good (st : FStream) (d : List Nat) (hf : st.failed = false) (hd : d ≠ []) :
    st.write d = ⟨overwrite st.content st.pos d, st.pos + d.length, false⟩ := by
  cases st
  simp_all [write]

theorem write_nil (st : FStream) : st.write [] = st := by
  simp [write]

theorem read_good (st : FStream) (n : Nat) (hf : st.failed = false)
    (hn : st.pos + n ≤ st.content.length) :
    st.read n = (⟨st.content, st.pos + n, false⟩, (st.content.drop st.pos).take n) := by
  cases st
  simp_all [read]
  omega

end FStream

/-! ## Equations for the branches of the calls -/

namespace IVFS

theorem Read_eq (s : IVFS) (p : Nat) (file : File) (buff : List Nat) (len : Nat)
    (hp : s.heap[p]? = some file) (hr : file.isOpenForReading = true) :
    s.Read (some p) buff len =
      ({ s with streamToBlob :=
                  ((s.streamToBlob.seek file.beginning).read (min len file.actSize)).1 },
       ((s.streamToBlob.seek file.beginning).read (min len file.actSize)).2 ++
         buff.drop ((s.streamToBlob.seek file.beginning).read (min len file.actSize)).2.length,
       ((s.streamToBlob.seek file.beginning).read (min len file.actSize)).2.length) := by
  simp [Read, hp, hr]

theorem Read_eq_closed (s : IVFS) (p : Nat) (file : File) (buff : List Nat) (len : Nat)
    (hp : s.heap[p]? = some file) (hr : file.isOpenForReading = false) :
    s.Read (some p) buff len = (s, buff, 0) := by
  simp [Read, hp, hr]

theorem Write_eq_inplace (s : IVFS) (p : Nat) (file : File) (buff : List Nat) (junk : Nat → Nat)
    (hp : s.heap[p]? = some file) (hw : file.isOpenForWriting = true)
    (hfit : (file.actSize + buff.length) % SIZE_MOD ≤ file.maxSize) :
    s.Write (some p) buff junk =
      ({ s with streamToBlob := (s.streamToBlob.seek file.beginning).write buff,
                heap := s.heap.set p
                  { file with actSize := (file.actSize + buff.length) % SIZE_MOD } },
       buff.length) := by
  simp [Write, hp, hw, hfit]

theorem Create_empty (name : Name) :
    IVFS.empty.Create name =
      (⟨[⟨0, 0, 4096, false, true⟩], [(name, some 0)], ⟨zeros 4096, 4096, false⟩, 4096⟩,
        some 0) := by
  have hz : zeros 4096 ≠ [] := by simp [zeros_eq_nil_iff]
  simp only [Create, IVFS.empty, NameMap.index, NameMap.find, NameMap.assign]
  rw [FStream.write_good _ _ rfl hz]
  simp [SIZE_MOD, overwrite, zeros_eq_nil_iff]

/-- In-place write of at most 4096 bytes into the zero-filled region of a fresh blob. -/
theorem write_fresh_region (bytes : List Nat) (hlen : bytes.length ≤ 4096) :
    ((FStream.mk (zeros 4096) 4096 false).seek 0).write bytes =
      ⟨bytes ++ (zeros 4096).drop bytes.length, bytes.length, false⟩ := by
  rw [FStream.seek_good _ _ rfl (by simp [OFF_LIMIT])]
  by_cases hb : bytes = []
  · subst hb; simp [FStream.write_nil]
  · rw [FStream.write_good _ _ rfl hb, overwrite_within _ _ _ (by simp)]
    simp

end IVFS

/-! ## C1: write then read on a fresh engine -/

/-- C1, as stated, fails: after `Create("a")` and `Write(h, [5])` alone the handle is not
open for reading, so `Read(h, 1)` returns 0 and leaves the caller's buffer `[0]` as it
was, instead of returning the byte written. -/
theorem C1_read_without_open :
    (((IVFS.empty.Create [97]).1.Write (IVFS.empty.Create [97]).2 [5] (fun _ => 0)).1.Read
        (IVFS.empty.Create [97]).2 [0] 1).2 = ([0], 0) ∧
    (((IVFS.empty.Create [97]).1.Write (IVFS.empty.Create [97]).2 [5] (fun _ => 0)).1.Read
        (IVFS.empty.Create [97]).2 [0] 1).2 ≠ ([5], [5].length) := by
  decide

/-- C1 (amended): on an empty engine, for every `bytes` of length at most 4096, after
`h = Create("a")`, `Write(h, bytes)` and an `Open("a")` made before or after the `Write`
(it returns the same handle `h` and marks it open for reading), `Write` returned
`len(bytes)` and `Read(h, len(bytes))` returns the count `len(bytes)` and puts exactly
`bytes` at the start of the caller's buffer. -/
theorem C1_roundtrip_with_open (bytes buff : List Nat) (junk : Nat → Nat)
    (hlen : bytes.length ≤ 4096) :
    (let c := IVFS.empty.Create [97]
     let w := c.1.Write c.2 bytes junk
     let o := w.1.Open [97]
     o.2 = c.2 ∧ w.2 = bytes.length ∧
       (o.1.Read c.2 buff bytes.length).2 = (bytes ++ buff.drop bytes.length, bytes.length)) ∧
    (let c := IVFS.empty.Create [97]
     let o := c.1.Open [97]
     let w := o.1.Write c.2 bytes junk
     o.2 = c.2 ∧ w.2 = bytes.length ∧
       (w.1.Read c.2 buff bytes.length).2 = (bytes ++ buff.drop bytes.length, bytes.length)) := by
  have hmod : (0 + bytes.length) % SIZE_MOD = bytes.length := by
    rw [Nat.zero_add]; exact Nat.mod_eq_of_lt (by unfold SIZE_MOD; omega)
  have hread : ∀ s : IVFS, s.heap = [⟨0, bytes.length, 4096, true, true⟩] →
      s.streamToBlob = ⟨bytes ++ (zeros 4096).drop bytes.length, bytes.length, false⟩ →
      (s.Read (some 0) buff bytes.length).2
        = (bytes ++ buff.drop bytes.length, bytes.length) := by
    intro s hh hs
    rw [IVFS.Read_eq s 0 ⟨0, bytes.length, 4096, true, true⟩ _ _ (by rw [hh]; rfl) rfl, hs]
    simp only [Nat.min_self]
    rw [FStream.seek_good _ _ rfl (by simp [OFF_LIMIT]), FStream.read_good _ _ rfl (by simp)]
    simp
  constructor
  · intro c w o
    have hc : c = (⟨[⟨0, 0, 4096, false, true⟩], [([97], some 0)],
        ⟨zeros 4096, 4096, false⟩, 4096⟩, some 0) := IVFS.Create_empty _
    have hw : w = (⟨[⟨0, bytes.length, 4096, false, true⟩], [([97], some 0)],
        ⟨bytes ++ (zeros 4096).drop bytes.length, bytes.length, false⟩, 4096⟩,
        bytes.length) := by
      simp only [w, hc]
      rw [IVFS.Write_eq_inplace ⟨[⟨0, 0, 4096, false, true⟩], _, _, _⟩ 0
        ⟨0, 0, 4096, false, true⟩ _ _ rfl rfl (by simp only [hmod]; exact hlen)]
      simp only [hmod, IVFS.write_fresh_region bytes hlen]
      simp
    have ho : o = (⟨[⟨0, bytes.length, 4096, true, true⟩], [([97], some 0)],
        ⟨bytes ++ (zeros 4096).drop bytes.length, bytes.length, false⟩, 4096⟩, some 0) := by
      simp only [o, hw]
      simp [IVFS.Open, NameMap.index, NameMap.find]
    refine ⟨by simp [ho, hc], by simp [hw], ?_⟩
    rw [hc, ho]
    exact hread _ rfl rfl
  · intro c o w
    have hc : c = (⟨[⟨0, 0, 4096, false, true⟩], [([97], some 0)],
        ⟨zeros 4096, 4096, false⟩, 4096⟩, some 0) := IVFS.Create_empty _
    have ho : o = (⟨[⟨0, 0, 4096, true, true⟩], [([97], some 0)],
        ⟨zeros 4096, 4096, false⟩, 4096⟩, some 0) := by
      simp only [o, hc]
      simp [IVFS.Open, NameMap.index, NameMap.find]
    have hw : w = (⟨[⟨0, bytes.length, 4096, true, true⟩], [([97], some 0)],
        ⟨bytes ++ (zeros 4096).drop bytes.length, bytes.length, false⟩, 4096⟩,
        bytes.length) := by
      simp only [w, ho, hc]
      rw [IVFS.Write_eq_inplace ⟨[⟨0, 0, 4096, true, true⟩], _, _, _⟩ 0
        ⟨0, 0, 4096, true, true⟩ _ _ rfl rfl (by simp only [hmod]; exact hlen)]
      simp only [hmod, IVFS.write_fresh_region bytes hlen]
      simp
    refine ⟨by simp [ho, hc], by simp [hw], ?_⟩
    rw [hc, hw]
    exact hread _ rfl rfl

/-- Instance of `C1_roundtrip_with_open` for the three bytes `1, 2, 3` and a caller's
buffer of four bytes. -/
theorem C1_roundtrip_with_open_witness :
    [1, 2, 3].length ≤ 4096 ∧
    (let c := IVFS.empty.Create [97]
     let w := c.1.Write c.2 [1, 2, 3] (fun _ => 0)
     let o := w.1.Open [97]
     o.2 = c.2 ∧ w.2 = [1, 2, 3].length ∧
       (o.1.Read c.2 [9, 9, 9, 9] [1, 2, 3].length).2
         = ([1, 2, 3] ++ [9, 9, 9, 9].drop [1, 2, 3].length, [1, 2, 3].length)) :=
  ⟨by decide, (C1_roundtrip_with_open [1, 2, 3] [9, 9, 9, 9] (fun _ => 0) (by decide)).1⟩

theorem FStream.write_le (st : FStream) (d : List Nat) (hf : st.failed = false)
    (hp : st.pos ≤ st.content.length) :
    st.write d =
      ⟨st.content.take st.pos ++ d ++ st.content.drop (st.pos + d.length), st.pos + d.length,
        false⟩ := by
  by_cases hd : d = []
  · subst hd; cases st; simp_all [FStream.write]
  · rw [FStream.write_good _ _ hf hd, overwrite_within _ _ _ hp]

namespace IVFS

theorem Write_eq_reloc (s : IVFS) (p : Nat) (file : File) (buff : List Nat) (junk : Nat → Nat)
    (hp : s.heap[p]? = some file) (hw : file.isOpenForWriting = true)
    (hgrow : file.maxSize < (file.actSize + buff.length) % SIZE_MOD) :
    s.Write (some p) buff junk =
      ({ (s.Read (some p) ((List.range file.actSize).map junk) file.actSize).1 with
          streamToBlob :=
            ((((s.Read (some p) ((List.range file.actSize).map junk)
                file.actSize).1.streamToBlob.write
              (s.Read (some p) ((List.range file.actSize).map junk) file.actSize).2.1).write
              buff).write
              (zeros (max ((buff.length + file.actSize) % SIZE_MOD) (file.maxSize * 2 % SIZE_MOD)
                - (file.actSize + buff.length) % SIZE_MOD))).seekEnd,
          heap := (s.Read (some p) ((List.range file.actSize).map junk) file.actSize).1.heap.set p
            { file with
                beginning := s.blobSize,
                maxSize := max ((buff.length + file.actSize) % SIZE_MOD)
                  (file.maxSize * 2 % SIZE_MOD),
                actSize := (file.actSize + buff.length) % SIZE_MOD },
          blobSize :=
            ((((s.Read (some p) ((List.range file.actSize).map junk)
                file.actSize).1.streamToBlob.write
              (s.Read (some p) ((List.range file.actSize).map junk) file.actSize).2.1).write
              buff).write
              (zeros (max ((buff.length + file.actSize) % SIZE_MOD) (file.maxSize * 2 % SIZE_MOD)
                - (file.actSize + buff.length) % SIZE_MOD))).seekEnd.tell },
       buff.length) := by
  have h : ¬ (file.actSize + buff.length) % SIZE_MOD ≤ file.maxSize := by omega
  simp [Write, hp, hw, h]

/-- The engine after `Create("a")`, `Open("a")` on an empty engine. -/
theorem run_create_open (name : Name) :
    IVFS.run IVFS.empty [.Create name, .Open name] =
      ⟨[⟨0, 0, 4096, true, true⟩], [(name, some 0)], ⟨zeros 4096, 4096, false⟩, 4096⟩ := by
  simp only [run, List.foldl, step, Create_empty]
  simp [Open, NameMap.index, NameMap.find]

/-- The engine after `Create("a")`, `Open("a")` and a `Write` of more than 4096 (and at
most 8192) bytes on an empty engine: the data lies at the start of the blob, the
record points behind it. -/
theorem run_create_open_write (name : Name) (data : List Nat) (junk : Nat → Nat)
    (h1 : 4096 < data.length) (h2 : data.length ≤ 8192) :
    IVFS.run IVFS.empty [.Create name, .Open name, .Write (some 0) data junk] =
      ⟨[⟨4096, data.length, 8192, true, true⟩], [(name, some 0)],
        ⟨data ++ zeros (8192 - data.length), 8192, false⟩, 8192⟩ := by
  have hrun : IVFS.run IVFS.empty [.Create name, .Open name, .Write (some 0) data junk] =
      ((IVFS.run IVFS.empty [.Create name, .Open name]).Write (some 0) data junk).1 := by
    simp [run, step]
  have hmod : (0 + data.length) % SIZE_MOD = data.length := by
    rw [Nat.zero_add]; exact Nat.mod_eq_of_lt (by unfold SIZE_MOD; omega)
  rw [hrun, run_create_open,
    Write_eq_reloc ⟨[⟨0, 0, 4096, true, true⟩], _, _, _⟩ 0 ⟨0, 0, 4096, true, true⟩ _ _ rfl rfl
      (by simp only [hmod]; exact h1),
    Read_eq ⟨[⟨0, 0, 4096, true, true⟩], _, _, _⟩ 0 ⟨0, 0, 4096, true, true⟩ _ _ rfl rfl]
  have hd : data ≠ [] := by intro h; rw [h] at h1; simp at h1
  have hmax : max ((data.length + 0) % SIZE_MOD) (4096 * 2 % SIZE_MOD) = 8192 := by
    rw [Nat.add_comm, hmod]; simp [SIZE_MOD]; omega
  simp only [hmod, hmax, Nat.min_self, List.range_zero, List.map_nil]
  rw [FStream.seek_good _ _ rfl (by simp [OFF_LIMIT]), FStream.read_good _ _ rfl (by simp)]
  simp only [List.take_zero, List.length_nil, List.drop_nil, List.append_nil, FStream.write_nil,
    Nat.add_zero]
  rw [FStream.write_le ⟨zeros 4096, 0, false⟩ data rfl (by simp)]
  simp only [List.take_zero, List.nil_append, Nat.zero_add]
  rw [FStream.write_le _ _ rfl (by simp), FStream.seekEnd_good _ rfl]
  have hdrop : List.drop data.length (zeros 4096) = [] := by
    apply List.drop_eq_nil_of_le; simp; omega
  simp [FStream.tell, hdrop]
  omega

end IVFS

/-! ## Frame facts -/

namespace FStream

theorem seek_content (st : FStream) (p : Nat) : (st.seek p).content = st.content := by
  unfold seek
  split
  · rfl
  · split <;> rfl

theorem read_content (st : FStream) (n : Nat) : (st.read n).1.content = st.content := by
  unfold read; split <;> rfl

theorem seek_failed_eq (st : FStream) (p : Nat) (hf : st.failed = true) : st.seek p = st := by
  simp [seek, hf]

theorem seekEnd_failed_eq (st : FStream) (hf : st.failed = true) : st.seekEnd = st := by
  simp [seekEnd, hf]

theorem write_failed_eq (st : FStream) (d : List Nat) (hf : st.failed = true) :
    st.write d = st := by
  simp [write, hf]

theorem read_failed_eq (st : FStream) (n : Nat) (hf : st.failed = true) :
    st.read n = (st, []) := by
  simp [read, hf]

end FStream

namespace IVFS

theorem Read_heap (s : IVFS) (f : Handle) (buff : List Nat) (len : Nat) :
    (s.Read f buff len).1.heap = s.heap := by
  unfold Read
  split
  · rfl
  · split
    · rfl
    · split <;> rfl

theorem Read_nameMap (s : IVFS) (f : Handle) (buff : List Nat) (len : Nat) :
    (s.Read f buff len).1.nameMap = s.nameMap := by
  unfold Read
  split
  · rfl
  · split
    · rfl
    · split <;> rfl

theorem Read_blobSize (s : IVFS) (f : Handle) (buff : List Nat) (len : Nat) :
    (s.Read f buff len).1.blobSize = s.blobSize := by
  unfold Read
  split
  · rfl
  · split
    · rfl
    · split <;> rfl

theorem Read_content (s : IVFS) (f : Handle) (buff : List Nat) (len : Nat) :
    (s.Read f buff len).1.streamToBlob.content = s.streamToBlob.content := by
  unfold Read
  split
  · rfl
  · split
    · rfl
    · split
      · rfl
      · simp [FStream.read_content, FStream.seek_content]

end IVFS

/-! ## C3 -/

namespace IVFS

/-- The constructor on the map file `hugeSizeMap` and a blob file of 4096 zero bytes. -/
theorem construct_hugeSizeMap : construct hugeSizeMap (zeros 4096) = some hugeSizeEngine := by
  have h : GetMap hugeSizeMap
      = some ([⟨0, 18446744073709551614, 4096, false, false⟩], [([97], some 0)]) := by
    decide
  simp [construct, h, FStream.seekEnd, FStream.tell, hugeSizeEngine]

/-- The call `Create("a")` on `hugeSizeEngine` finds the loaded record and opens it for
writing. -/
theorem Create_hugeSizeEngine :
    hugeSizeEngine.Create [97] =
      (⟨[⟨0, 18446744073709551614, 4096, false, true⟩], [([97], some 0)],
        ⟨zeros 4096, 4096, false⟩, 4096⟩, some 0) := by
  simp [Create, hugeSizeEngine, NameMap.index, NameMap.find]

/-- A `Write` of three bytes through that handle: `size + 3` is `2^64 + 1`, which is 1 as
a `size_t`, so the in-place branch is taken. -/
theorem Write_hugeSizeEngine (junk : Nat → Nat) :
    (hugeSizeEngine.Create [97]).1.Write (some 0) [7, 7, 7] junk =
      (⟨[⟨0, 1, 4096, false, true⟩], [([97], some 0)],
        ⟨[7, 7, 7] ++ zeros 4093, 3, false⟩, 4096⟩, 3) := by
  rw [Create_hugeSizeEngine,
    Write_eq_inplace ⟨[⟨0, 18446744073709551614, 4096, false, true⟩], _, _, _⟩ 0
      ⟨0, 18446744073709551614, 4096, false, true⟩ [7, 7, 7] junk rfl rfl (by decide),
    FStream.seek_good _ _ rfl (by simp [OFF_LIMIT]), FStream.write_le _ _ rfl (by simp)]
  simp [SIZE_MOD, drop_zeros]

end IVFS

/-- C3, as stated, fails where `size + len(data)` does not fit a `size_t`.  The engine
constructed from a map file whose one entry `a` has offset 0, size `2^64 - 2` and
capacity 4096, over a blob file of 4096 zero bytes, has `blobSize = 4096`, and
`Create("a")` returns the handle to that record, open for writing.  Its size plus 3
exceeds its capacity, yet `Write(h, [7, 7, 7])` takes the in-place branch (the sum wraps
to 1): afterwards the capacity is still 4096, not `max(3 + size, 2 * 4096)`, and the
offset is still 0, not the 4096 that was the blob's length. -/
theorem C3_size_sum_wraps :
    IVFS.construct IVFS.hugeSizeMap (zeros 4096) = some IVFS.hugeSizeEngine ∧
    (IVFS.hugeSizeEngine.Create [97]).2 = some 0 ∧
    (IVFS.hugeSizeEngine.Create [97]).1.record (some 0)
      = some ⟨0, 18446744073709551614, 4096, false, true⟩ ∧
    (IVFS.hugeSizeEngine.Create [97]).1.blobSize = 4096 ∧
    (IVFS.hugeSizeEngine.Create [97]).1.streamToBlob.content.length = 4096 ∧
    4096 < 18446744073709551614 + [7, 7, 7].length ∧
    ((IVFS.hugeSizeEngine.Create [97]).1.Write (some 0) [7, 7, 7] (fun _ => 0)).1.record (some 0)
      = some ⟨0, 1, 4096, false, true⟩ ∧
    4096 ≠ max ([7, 7, 7].length + 18446744073709551614) (2 * 4096) ∧
    0 ≠ 4096 := by
  refine ⟨IVFS.construct_hugeSizeMap, ?_, ?_, ?_, ?_, by decide, ?_, by decide, by decide⟩
  · rw [IVFS.Create_hugeSizeEngine]
  · rw [IVFS.Create_hugeSizeEngine]; rfl
  · rw [IVFS.Create_hugeSizeEngine]
  · rw [IVFS.Create_hugeSizeEngine]; simp
  · rw [IVFS.Write_hugeSizeEngine]; rfl

/-- C3 (amended): for every handle open for writing whose record has size `s` and capacity
`c`, and every `data` with `(s + len(data)) mod 2^64 > c` (the comparison the code makes,
on `size_t` values), after `Write(h, data)` the record's capacity is
`max((len(data) + s) mod 2^64, (2 * c) mod 2^64)` and its offset is the value `blobSize`
had before the call.  Whenever `s + len(data) < 2^64` and `2 * c < 2^64` this is the
statement without the reductions: `s + len(data) > c` gives the capacity
`max(len(data) + s, 2 * c)`.  On an empty engine `Create("a")` gives the record
`{0, 0, 4096}` and a following write of 5000 bytes gives capacity 8192 and offset 4096. -/
theorem C3_growth :
    (∀ (s : IVFS) (p : Nat) (file : File) (data : List Nat) (junk : Nat → Nat),
      s.heap[p]? = some file → file.isOpenForWriting = true →
      file.maxSize < (file.actSize + data.length) % SIZE_MOD →
      ∃ file', (s.Write (some p) data junk).1.heap[p]? = some file' ∧
        file'.maxSize
          = max ((data.length + file.actSize) % SIZE_MOD) (2 * file.maxSize % SIZE_MOD) ∧
        file'.beginning = s.blobSize) ∧
    (∀ (s : IVFS) (p : Nat) (file : File) (data : List Nat) (junk : Nat → Nat),
      s.heap[p]? = some file → file.isOpenForWriting = true →
      file.maxSize < file.actSize + data.length →
      file.actSize + data.length < SIZE_MOD → 2 * file.maxSize < SIZE_MOD →
      ∃ file', (s.Write (some p) data junk).1.heap[p]? = some file' ∧
        file'.maxSize = max (data.length + file.actSize) (2 * file.maxSize) ∧
        file'.beginning = s.blobSize) ∧
    (IVFS.empty.Create [97]).1.heap = [⟨0, 0, 4096, false, true⟩] ∧
    (∀ (data : List Nat) (junk : Nat → Nat), data.length = 5000 →
      ((IVFS.empty.Create [97]).1.Write (IVFS.empty.Create [97]).2 data junk).1.heap
        = [⟨4096, 5000, 8192, false, true⟩]) := by
  have key : ∀ (s : IVFS) (p : Nat) (file : File) (data : List Nat) (junk : Nat → Nat),
      s.heap[p]? = some file → file.isOpenForWriting = true →
      file.maxSize < (file.actSize + data.length) % SIZE_MOD →
      (s.Write (some p) data junk).1.heap = s.heap.set p
        { file with beginning := s.blobSize,
                    maxSize := max ((data.length + file.actSize) % SIZE_MOD)
                      (2 * file.maxSize % SIZE_MOD),
                    actSize := (file.actSize + data.length) % SIZE_MOD } := by
    intro s p file data junk hp hw hgrow
    rw [IVFS.Write_eq_reloc s p file data junk hp hw hgrow]
    simp only [IVFS.Read_heap, Nat.mul_comm file.maxSize 2]
  have hlt : ∀ (s : IVFS) (p : Nat) (file : File), s.heap[p]? = some file →
      p < s.heap.length := by
    intro s p file hp
    rcases Nat.lt_or_ge p s.heap.length with h | h
    · exact h
    · rw [List.getElem?_eq_none h] at hp; cases hp
  refine ⟨?_, ?_, ?_, ?_⟩
  · intro s p file data junk hp hw hgrow
    rw [key s p file data junk hp hw hgrow]
    exact ⟨_, List.getElem?_set_self (hlt s p file hp), rfl, rfl⟩
  · intro s p file data junk hp hw hgrow hsum hdbl
    have hm1 : (file.actSize + data.length) % SIZE_MOD = file.actSize + data.length :=
      Nat.mod_eq_of_lt hsum
    have hm2 : (data.length + file.actSize) % SIZE_MOD = data.length + file.actSize := by
      rw [Nat.add_comm]; exact hm1
    have hm3 : 2 * file.maxSize % SIZE_MOD = 2 * file.maxSize := Nat.mod_eq_of_lt hdbl
    rw [key s p file data junk hp hw (by rw [hm1]; exact hgrow), hm2, hm3]
    exact ⟨_, List.getElem?_set_self (hlt s p file hp), rfl, rfl⟩
  · rw [IVFS.Create_empty]
  · intro data junk hl
    rw [IVFS.Create_empty]
    rw [key ⟨[⟨0, 0, 4096, false, true⟩], _, _, 4096⟩ 0 ⟨0, 0, 4096, false, true⟩ data junk
      rfl rfl (by simp [hl, SIZE_MOD])]
    simp [hl, SIZE_MOD]

/-- Instance of `C3_growth` on `smallFile` (size 0, capacity 4, `blobSize` 6) with five
bytes written. -/
theorem C3_growth_witness :
    IVFS.smallFile.heap[0]? = some ⟨1, 0, 4, false, true⟩ ∧
    (4 < (0 + [5, 6, 7, 8, 9].length) % SIZE_MOD) ∧
    (4 < 0 + [5, 6, 7, 8, 9].length) ∧ (0 + [5, 6, 7, 8, 9].length < SIZE_MOD) ∧
    (2 * 4 < SIZE_MOD) ∧
    (∃ file', (IVFS.smallFile.Write (some 0) [5, 6, 7, 8, 9] (fun _ => 0)).1.heap[0]?
        = some file' ∧
      file'.maxSize = max (([5, 6, 7, 8, 9].length + 0) % SIZE_MOD) (2 * 4 % SIZE_MOD) ∧
      file'.beginning = IVFS.smallFile.blobSize) ∧
    ∃ file', (IVFS.smallFile.Write (some 0) [5, 6, 7, 8, 9] (fun _ => 0)).1.heap[0]?
        = some file' ∧
      file'.maxSize = max ([5, 6, 7, 8, 9].length + 0) (2 * 4) ∧
      file'.beginning = IVFS.smallFile.blobSize :=
  ⟨rfl, by decide, by decide, by decide, by decide,
    C3_growth.1 IVFS.smallFile 0 ⟨1, 0, 4, false, true⟩ [5, 6, 7, 8, 9] (fun _ => 0) rfl rfl
      (by decide),
    C3_growth.2.1 IVFS.smallFile 0 ⟨1, 0, 4, false, true⟩ [5, 6, 7, 8, 9] (fun _ => 0) rfl rfl
      (by decide) (by decide) (by decide)⟩

/-! ## Writing inside the blob -/

theorem splice_length (blob d : List Nat) (b : Nat) (h : b + d.length ≤ blob.length) :
    (blob.take b ++ d ++ blob.drop (b + d.length)).length = blob.length := by
  simp only [List.length_append, List.length_take, List.length_drop]
  omega

theorem splice_getElem?_mid (blob d : List Nat) (b i : Nat) (hb : b ≤ blob.length)
    (hi : i < d.length) :
    (blob.take b ++ d ++ blob.drop (b + d.length))[b + i]? = d[i]? := by
  have h1 : (blob.take b).length = b := by simp; omega
  rw [List.append_assoc, List.getElem?_append_right (by omega), h1,
    List.getElem?_append_left (by omega)]
  congr 1
  omega

theorem splice_getElem?_out (blob d : List Nat) (b i : Nat) (hb : b + d.length ≤ blob.length)
    (hi : i < b ∨ b + d.length ≤ i) :
    (blob.take b ++ d ++ blob.drop (b + d.length))[i]? = blob[i]? := by
  have h1 : (blob.take b).length = b := by simp; omega
  rcases hi with hi | hi
  · rw [List.append_assoc, List.getElem?_append_left (by omega), List.getElem?_take_of_lt hi]
  · rw [List.getElem?_append_right (by simp; omega), List.getElem?_drop]
    congr 1
    simp
    omega

namespace IVFS

/-- The in-place branch of `Write` on a stream in a good state, for a record whose
region lies inside the blob. -/
theorem Write_inplace_good (s : IVFS) (p : Nat) (file : File) (data : List Nat)
    (junk : Nat → Nat) (hp : s.heap[p]? = some file) (hw : file.isOpenForWriting = true)
    (hfit : file.actSize + data.length ≤ file.maxSize)
    (hin : file.beginning + file.maxSize ≤ s.streamToBlob.content.length)
    (hgood : s.streamToBlob.failed = false) (hoff : file.beginning < OFF_LIMIT) :
    s.Write (some p) data junk =
      (⟨s.heap.set p { file with actSize := (file.actSize + data.length) % SIZE_MOD },
        s.nameMap,
        ⟨s.streamToBlob.content.take file.beginning ++ data ++
          s.streamToBlob.content.drop (file.beginning + data.length),
          file.beginning + data.length, false⟩,
        s.blobSize⟩, data.length) := by
  have hle : (file.actSize + data.length) % SIZE_MOD ≤ file.maxSize :=
    Nat.le_trans (Nat.mod_le _ _) hfit
  rw [Write_eq_inplace s p file data junk hp hw hle, FStream.seek_good _ _ hgood hoff,
    FStream.write_le _ _ rfl (by simp only []; omega)]

end IVFS

/-! ## The in-place branch -/

namespace IVFS

/-- What the in-place branch of `Write` (taken when `(size + len(data)) mod 2^64` is at
most the capacity) changes.  In every state the record keeps its offset, capacity and
flags and its size becomes `(size + len(data)) mod 2^64`, and the other records, the
name map and `blobSize` are unchanged.  When the blob stream is in a good state, the
record's offset is below `2^63` and `offset + len(data)` is at most the blob's length,
the blob bytes at `[offset, offset + len(data))` become `data` and every other blob byte
and the blob's length are unchanged. -/
theorem Write_inplace_effect (s : IVFS) (p : Nat) (file : File) (data : List Nat)
    (junk : Nat → Nat) (hp : s.heap[p]? = some file) (hw : file.isOpenForWriting = true)
    (hfit : (file.actSize + data.length) % SIZE_MOD ≤ file.maxSize) :
    (s.streamToBlob.failed = false → file.beginning < OFF_LIMIT →
      file.beginning + data.length ≤ s.streamToBlob.content.length →
      (∀ i, i < data.length →
        (s.Write (some p) data junk).1.streamToBlob.content[file.beginning + i]? = data[i]?) ∧
      (∀ i, i < file.beginning ∨ file.beginning + data.length ≤ i →
        (s.Write (some p) data junk).1.streamToBlob.content[i]? = s.streamToBlob.content[i]?) ∧
      (s.Write (some p) data junk).1.streamToBlob.content.length
        = s.streamToBlob.content.length) ∧
    (s.Write (some p) data junk).1.blobSize = s.blobSize ∧
    (∃ file', (s.Write (some p) data junk).1.heap[p]? = some file' ∧
      file'.beginning = file.beginning ∧ file'.maxSize = file.maxSize ∧
      file'.actSize = (file.actSize + data.length) % SIZE_MOD ∧
      file'.isOpenForReading = file.isOpenForReading ∧
      file'.isOpenForWriting = file.isOpenForWriting) ∧
    (∀ q, q ≠ p → (s.Write (some p) data junk).1.heap[q]? = s.heap[q]?) ∧
    (s.Write (some p) data junk).1.nameMap = s.nameMap := by
  have hlt : p < s.heap.length := by
    rcases Nat.lt_or_ge p s.heap.length with h | h
    · exact h
    · rw [List.getElem?_eq_none h] at hp; cases hp
  rw [Write_eq_inplace s p file data junk hp hw hfit]
  refine ⟨?_, rfl, ⟨_, List.getElem?_set_self hlt, rfl, rfl, rfl, rfl, rfl⟩, ?_, rfl⟩
  · intro hgood hoff hin
    simp only []
    rw [FStream.seek_good _ _ hgood hoff, FStream.write_le _ _ rfl (by simp only []; omega)]
    have hb : file.beginning ≤ s.streamToBlob.content.length :=
      Nat.le_trans (Nat.le_add_right _ _) hin
    exact ⟨fun i hi => splice_getElem?_mid _ _ _ _ hb hi,
      fun i hi => splice_getElem?_out _ _ _ _ hin hi, splice_length _ _ _ hin⟩
  · intro q hq
    exact List.getElem?_set_ne (Ne.symm hq)

/-- Instance of `Write_inplace_effect` on `smallFile` with two bytes written. -/
theorem Write_inplace_effect_smallFile :
    (smallFile.Write (some 0) [8, 9] (fun _ => 0)).1.streamToBlob.content.length
      = smallFile.streamToBlob.content.length ∧
    (smallFile.Write (some 0) [8, 9] (fun _ => 0)).1.blobSize = smallFile.blobSize ∧
    (smallFile.Write (some 0) [8, 9] (fun _ => 0)).1.nameMap = smallFile.nameMap :=
  ⟨((Write_inplace_effect smallFile 0 ⟨1, 0, 4, false, true⟩ [8, 9] (fun _ => 0) rfl rfl
      (by decide)).1 rfl (by decide) (by decide)).2.2,
    (Write_inplace_effect smallFile 0 ⟨1, 0, 4, false, true⟩ [8, 9] (fun _ => 0) rfl rfl
      (by decide)).2.1,
    (Write_inplace_effect smallFile 0 ⟨1, 0, 4, false, true⟩ [8, 9] (fun _ => 0) rfl rfl
      (by decide)).2.2.2.2⟩

end IVFS

/-! ## Creation and relocation on a stream in a good state -/

theorem NameMap.index_snd (m : NameMap) (k : Name) : (m.index k).2 = (m.find k).join := by
  unfold NameMap.index
  cases h : m.find k with
  | none => rfl
  | some v => cases v <;> rfl

namespace FStream

/-- Two writes in a row are one write of the concatenation. -/
theorem write_write (st : FStream) (d1 d2 : List Nat) (hf : st.failed = false)
    (hp : st.pos ≤ st.content.length) :
    (st.write d1).write d2 = st.write (d1 ++ d2) := by
  have hl : (st.content.take st.pos).length = st.pos := by simp; omega
  rw [write_le st d1 hf hp, write_le _ d2 rfl (by simp; omega), write_le st _ hf hp]
  simp only [List.length_append]
  have h1 : List.take (st.pos + d1.length)
      (List.take st.pos st.content ++ d1 ++ List.drop (st.pos + d1.length) st.content)
      = List.take st.pos st.content ++ d1 := by
    rw [List.take_append_of_le_length (by simp; omega)]
    exact List.take_of_length_le (by simp)
  have h2 : List.drop (st.pos + d1.length + d2.length)
      (List.take st.pos st.content ++ d1 ++ List.drop (st.pos + d1.length) st.content)
      = List.drop (st.pos + (d1.length + d2.length)) st.content := by
    have e : st.pos + d1.length + d2.length
        = (List.take st.pos st.content ++ d1).length + d2.length := by simp; omega
    rw [e, List.drop_append, List.drop_drop]
    congr 1
    omega
  rw [h1, h2]
  simp [Nat.add_assoc]

end FStream

namespace IVFS

theorem Create_eq_new (s : IVFS) (name : Name) (h : s.lookup name = none) :
    s.Create name =
      (⟨s.heap ++ [⟨s.blobSize, 0, 4096, false, true⟩],
        (s.nameMap.index name).1.assign name (some s.heap.length),
        s.streamToBlob.write (zeros 4096), (s.blobSize + 4096) % SIZE_MOD⟩,
       some s.heap.length) := by
  have h2 : (s.nameMap.index name).2 = none := by rw [NameMap.index_snd]; exact h
  unfold Create
  generalize s.nameMap.index name = r at h2 ⊢
  obtain ⟨m, v⟩ := r
  simp only at h2
  subst h2
  rfl

/-- What the relocation branch of `Write` does for a handle that is also open for
reading, on a good stream, when the record's content lies inside the blob: the image
`img` (old content, data, padding) is written right behind the old content, where the
inner `Read` left the stream position; the record's offset becomes the former
`blobSize`, and `blobSize` becomes the length of the blob file. -/
theorem Write_reloc_open (s : IVFS) (p : Nat) (file : File) (data : List Nat)
    (junk : Nat → Nat) (img blob : List Nat)
    (hp : s.heap[p]? = some file) (hw : file.isOpenForWriting = true)
    (hr : file.isOpenForReading = true) (hgood : s.streamToBlob.failed = false)
    (hin : file.beginning + file.actSize ≤ s.streamToBlob.content.length)
    (hgrow : file.maxSize < file.actSize + data.length)
    (hsum : file.actSize + data.length < SIZE_MOD) (hdbl : 2 * file.maxSize < SIZE_MOD)
    (himg : img = (s.streamToBlob.content.drop file.beginning).take file.actSize ++ data ++
      zeros (max (data.length + file.actSize) (2 * file.maxSize)
        - (file.actSize + data.length)))
    (hblob : blob = s.streamToBlob.content.take (file.beginning + file.actSize) ++ img ++
      s.streamToBlob.content.drop (file.beginning + file.actSize + img.length))
    (hoff : file.beginning < OFF_LIMIT) :
    s.Write (some p) data junk =
      (⟨s.heap.set p
          { file with beginning := s.blobSize,
                      maxSize := max (data.length + file.actSize) (2 * file.maxSize),
                      actSize := file.actSize + data.length },
        s.nameMap, ⟨blob, blob.length, false⟩, blob.length⟩, data.length) := by
  have hm1 : (file.actSize + data.length) % SIZE_MOD = file.actSize + data.length :=
    Nat.mod_eq_of_lt hsum
  have hm2 : (data.length + file.actSize) % SIZE_MOD = data.length + file.actSize := by
    rw [Nat.add_comm]; exact hm1
  have hm3 : file.maxSize * 2 % SIZE_MOD = 2 * file.maxSize := by
    rw [Nat.mul_comm]; exact Nat.mod_eq_of_lt hdbl
  have hgot : ((s.streamToBlob.content.drop file.beginning).take file.actSize).length
      = file.actSize := by
    simp; omega
  rw [Write_eq_reloc s p file data junk hp hw (by rw [hm1]; exact hgrow),
    Read_eq s p file _ _ hp hr, FStream.seek_good _ _ hgood hoff]
  simp only [hm1, hm2, hm3, Nat.min_self]
  rw [FStream.read_good _ _ rfl hin]
  simp only [hgot]
  have hjunk : List.drop file.actSize (List.map junk (List.range file.actSize)) = [] :=
    List.drop_eq_nil_of_le (by simp)
  rw [hjunk, List.append_nil,
    FStream.write_write ⟨s.streamToBlob.content, file.beginning + file.actSize, false⟩ _ data
      rfl hin,
    FStream.write_write _ _ _ rfl hin, FStream.write_le _ _ rfl hin, FStream.seekEnd_good _ rfl, ← himg, ← hblob]
  rfl

end IVFS

theorem zeros_getElem? (n i : Nat) (h : i < n) : (zeros n)[i]? = some 0 := by
  simp [zeros, h]

theorem FStream.write_at_end (st : FStream) (d : List Nat) (hf : st.failed = false)
    (hp : st.pos = st.content.length) :
    st.write d = ⟨st.content ++ d, st.content.length + d.length, false⟩ := by
  rw [FStream.write_le st d hf (by omega), hp, List.take_of_length_le (Nat.le_refl _),
    List.drop_eq_nil_of_le (by omega), List.append_nil]

namespace IVFS

theorem run_append (s : IVFS) (xs ys : List Call) : s.run (xs ++ ys) = (s.run xs).run ys := by
  simp [run, List.foldl_append]

/-- The engine after `Create("a")`, `Create("b")` on an empty engine. -/
theorem run_create_create :
    IVFS.run IVFS.empty [.Create [97], .Create [98]] =
      ⟨[⟨0, 0, 4096, false, true⟩, ⟨4096, 0, 4096, false, true⟩],
        [([97], some 0), ([98], some 1)], ⟨zeros 4096 ++ zeros 4096, 8192, false⟩, 8192⟩ := by
  simp only [run, List.foldl, step, Create_empty]
  rw [Create_eq_new _ _ (by simp [lookup, NameMap.find]),
    FStream.write_at_end _ _ rfl (by simp)]
  simp [NameMap.index, NameMap.find, NameMap.assign, nameLt, SIZE_MOD]

/-- The engine after `Create("a")`, `Create("b")`, `Open("b")` and a `Write` through
`b` of more than 4096 (and at most 8192) bytes. -/
theorem run_two_files_write (data : List Nat) (junk : Nat → Nat)
    (h1 : 4096 < data.length) (h2 : data.length ≤ 8192) :
    IVFS.run IVFS.empty [.Create [97], .Create [98], .Open [98], .Write (some 1) data junk] =
      ⟨[⟨0, 0, 4096, false, true⟩, ⟨8192, data.length, 8192, true, true⟩],
        [([97], some 0), ([98], some 1)],
        ⟨zeros 4096 ++ (data ++ zeros (8192 - data.length)), 12288, false⟩, 12288⟩ := by
  have hrun : IVFS.run IVFS.empty
      [.Create [97], .Create [98], .Open [98], .Write (some 1) data junk] =
      (((IVFS.run IVFS.empty [.Create [97], .Create [98]]).Open [98]).1.Write
        (some 1) data junk).1 := by
    simp [run, step]
  have hopen : ((IVFS.run IVFS.empty [.Create [97], .Create [98]]).Open [98]).1 =
      ⟨[⟨0, 0, 4096, false, true⟩, ⟨4096, 0, 4096, true, true⟩],
        [([97], some 0), ([98], some 1)], ⟨zeros 4096 ++ zeros 4096, 8192, false⟩, 8192⟩ := by
    rw [run_create_create]
    simp [Open, NameMap.index, NameMap.find]
  have hmax : max (data.length + 0) (2 * 4096) = 8192 := by omega
  have hl : (data ++ zeros (8192 - data.length)).length = 8192 := by simp; omega
  have himg : data ++ zeros (8192 - data.length) =
      ((zeros 4096 ++ zeros 4096).drop 4096).take 0 ++ data ++
        zeros (max (data.length + 0) (2 * 4096) - (0 + data.length)) := by
    rw [hmax]
    simp
  have hblob : zeros 4096 ++ (data ++ zeros (8192 - data.length)) =
      (zeros 4096 ++ zeros 4096).take (4096 + 0) ++ (data ++ zeros (8192 - data.length)) ++
        (zeros 4096 ++ zeros 4096).drop
          (4096 + 0 + (data ++ zeros (8192 - data.length)).length) := by
    rw [hl, List.take_append_of_le_length (by simp), List.drop_eq_nil_of_le (by simp),
      List.take_of_length_le (by simp)]
    simp
  have hlen : (zeros 4096 ++ (data ++ zeros (8192 - data.length))).length = 12288 := by
    simp; omega
  rw [hrun, hopen, Write_reloc_open
    ⟨[⟨0, 0, 4096, false, true⟩, ⟨4096, 0, 4096, true, true⟩], _, ⟨_, _, false⟩, _⟩
    1 ⟨4096, 0, 4096, true, true⟩ data junk
    (data ++ zeros (8192 - data.length))
    (zeros 4096 ++ (data ++ zeros (8192 - data.length))) rfl rfl rfl rfl (by simp)
    (by simp only []; omega) (by simp only [SIZE_MOD]; omega) (by simp [SIZE_MOD])
    himg hblob (by simp [OFF_LIMIT])]
  simp only [hmax, hlen]
  simp

/-- A following `Read` through `b` that asks for more than 4096 bytes comes up short
and leaves the stream failed. -/
theorem run_two_files_fail (data buff : List Nat) (junk : Nat → Nat) (len : Nat)
    (h1 : 4096 < data.length) (h2 : data.length ≤ 8192) (h3 : 4096 < len) :
    IVFS.run IVFS.empty
        [.Create [97], .Create [98], .Open [98], .Write (some 1) data junk,
          .Read (some 1) buff len] =
      ⟨[⟨0, 0, 4096, false, true⟩, ⟨8192, data.length, 8192, true, true⟩],
        [([97], some 0), ([98], some 1)],
        ⟨zeros 4096 ++ (data ++ zeros (8192 - data.length)), 12288, true⟩, 12288⟩ := by
  have hrun : IVFS.run IVFS.empty
      [.Create [97], .Create [98], .Open [98], .Write (some 1) data junk,
        .Read (some 1) buff len] =
      ((IVFS.run IVFS.empty
        [.Create [97], .Create [98], .Open [98], .Write (some 1) data junk]).Read
          (some 1) buff len).1 := by
    simp [run, step]
  rw [hrun, run_two_files_write data junk h1 h2,
    Read_eq ⟨[⟨0, 0, 4096, false, true⟩, ⟨8192, data.length, 8192, true, true⟩], _, _, _⟩ 1
      ⟨8192, data.length, 8192, true, true⟩ _ _ rfl rfl,
    FStream.seek_good _ _ rfl (by simp [OFF_LIMIT])]
  have hl : (zeros 4096 ++ (data ++ zeros (8192 - data.length))).length = 12288 := by
    simp; omega
  simp only [FStream.read, List.length_take, List.length_drop, hl]
  have e1 : min (min len data.length) (12288 - 8192) = 4096 := by omega
  have e2 : (4096 != min len data.length) = true := by
    simp; omega
  simp [e1, e2]

end IVFS

/-! ## C4 -/

/-- C4 fails on the code.  On an empty engine, after `Create("a")`, `Create("b")`,
`Open("b")`, a `Write` of 5000 bytes through `b` and a `Read(b, 5000)` (which comes up
short and sets the stream's fail bit, never cleared by the engine), the record of `a` is
open for writing, has size 0 and capacity 4096 at offset 0, and the blob is 12288 bytes
long, so the region of `a` lies inside it.  `Write(a, [1])` then returns 1 and advances
the record's size to 1, yet stores nothing: the blob byte at offset 0 is still 0. -/
theorem C4_write_on_failed_stream :
    (IVFS.run IVFS.empty
        [.Create [97], .Create [98], .Open [98],
          .Write (some 1) (List.replicate 5000 7) (fun _ => 0),
          .Read (some 1) [] 5000]).heap[0]? = some ⟨0, 0, 4096, false, true⟩ ∧
    (IVFS.run IVFS.empty
        [.Create [97], .Create [98], .Open [98],
          .Write (some 1) (List.replicate 5000 7) (fun _ => 0),
          .Read (some 1) [] 5000]).streamToBlob.content.length = 12288 ∧
    ((IVFS.run IVFS.empty
        [.Create [97], .Create [98], .Open [98],
          .Write (some 1) (List.replicate 5000 7) (fun _ => 0),
          .Read (some 1) [] 5000]).Write (some 0) [1] (fun _ => 0)).2 = 1 ∧
    ((IVFS.run IVFS.empty
        [.Create [97], .Create [98], .Open [98],
          .Write (some 1) (List.replicate 5000 7) (fun _ => 0),
          .Read (some 1) [] 5000]).Write (some 0) [1]
            (fun _ => 0)).1.heap[0]? = some ⟨0, 1, 4096, false, true⟩ ∧
    ((IVFS.run IVFS.empty
        [.Create [97], .Create [98], .Open [98],
          .Write (some 1) (List.replicate 5000 7) (fun _ => 0),
          .Read (some 1) [] 5000]).Write (some 0) [1]
            (fun _ => 0)).1.streamToBlob.content[0]? = some 0 := by
  have hl : (List.replicate 5000 7).length = 5000 := List.length_replicate _ _
  generalize List.replicate 5000 7 = data at hl ⊢
  rw [IVFS.run_two_files_fail data [] _ 5000 (by omega) (by omega) (by omega),
    IVFS.Write_eq_inplace
      ⟨[⟨0, 0, 4096, false, true⟩, ⟨8192, data.length, 8192, true, true⟩], _, _, _⟩ 0
      ⟨0, 0, 4096, false, true⟩ [1] _ rfl rfl (by simp [SIZE_MOD]),
    FStream.seek_failed_eq _ _ rfl, FStream.write_failed_eq _ _ rfl]
  refine ⟨rfl, ?_, rfl, ?_, ?_⟩
  · simp; omega
  · simp [SIZE_MOD]
  · simp only []
    rw [List.getElem?_append_left (by simp)]
    exact zeros_getElem? _ _ (by omega)

/-! ## C6 -/

/-- C6 fails on the code.  On an empty engine, after `Create("a")`, `Open("a")` and a
`Write` of 5000 bytes through the handle, the name `a` maps to a record with offset
4096 and capacity 8192 while the blob file is 8192 bytes long and `blobSize` is 8192:
`offset + capacity` exceeds the blob length. -/
theorem C6_region_beyond_blob :
    (IVFS.run IVFS.empty
        [.Create [97], .Open [97], .Write (some 0) (List.replicate 5000 7)
          (fun _ => 0)]).lookup [97] = some 0 ∧
    (IVFS.run IVFS.empty
        [.Create [97], .Open [97], .Write (some 0) (List.replicate 5000 7)
          (fun _ => 0)]).record (some 0) = some ⟨4096, 5000, 8192, true, true⟩ ∧
    (IVFS.run IVFS.empty
        [.Create [97], .Open [97], .Write (some 0) (List.replicate 5000 7)
          (fun _ => 0)]).streamToBlob.content.length = 8192 ∧
    (IVFS.run IVFS.empty
        [.Create [97], .Open [97], .Write (some 0) (List.replicate 5000 7)
          (fun _ => 0)]).blobSize = 8192 ∧
    ¬ (4096 + 8192 ≤ 8192) := by
  have hl : (List.replicate 5000 7).length = 5000 := List.length_replicate _ _
  generalize List.replicate 5000 7 = data at hl ⊢
  rw [IVFS.run_create_open_write [97] data _ (by omega) (by omega), hl]
  refine ⟨?_, rfl, ?_, rfl, by omega⟩
  · simp [IVFS.lookup, NameMap.find]
  · simp [hl]

/-! ## C7 -/

/-- C7 fails on the code.  `Open` of a name that was never created evaluates
`nameMap[name]`, which inserts the key with a null pointer: on an empty engine
`Open("x")` returns `nullptr` and leaves the map with the key `x` and no record, and
`WriteMap` on that state dereferences the null pointer. -/
theorem C7_open_inserts_null_entry :
    IVFS.empty.Open [120] = (⟨[], [([120], none)], ⟨[], 0, false⟩, 0⟩, none) ∧
    (IVFS.empty.Open [120]).1.nameMap.find [120] = some none ∧
    IVFS.empty.nameMap.find [120] = none ∧
    (IVFS.empty.Open [120]).1.WriteMap [] = none := by
  decide

/-! ## The name map under lookups -/

namespace NameMap

theorem find_assign_self (m : NameMap) (k : Name) (v : Handle) :
    (m.assign k v).find k = some v := by
  induction m with
  | nil => simp [assign, find]
  | cons e rest ih =>
    obtain ⟨k', v'⟩ := e
    unfold assign
    by_cases h1 : k' = k
    · simp [h1, find]
    · by_cases h2 : nameLt k k' = true
      · simp [h1, h2, find]
      · simp [h1, h2, find, ih]

theorem find_assign_ne (m : NameMap) (k n : Name) (v : Handle) (h : n ≠ k) :
    (m.assign k v).find n = m.find n := by
  induction m with
  | nil => simp [assign, find, Ne.symm h]
  | cons e rest ih =>
    obtain ⟨k', v'⟩ := e
    unfold assign
    by_cases h1 : k' = k
    · subst h1
      simp [find, Ne.symm h]
    · by_cases h2 : nameLt k k' = true
      · simp [h1, h2, find, Ne.symm h]
      · simp [h1, h2, find, ih]

theorem join_find_index (m : NameMap) (k n : Name) :
    ((m.index k).1.find n).join = (m.find n).join := by
  unfold index
  cases h : m.find k with
  | some v => rfl
  | none =>
    by_cases hn : n = k
    · subst hn
      simp [find_assign_self, h]
    · simp [find_assign_ne _ _ _ _ hn]

theorem find_index_self (m : NameMap) (k : Name) :
    (m.index k).1.find k = some (m.index k).2 := by
  unfold index
  cases h : m.find k with
  | some v => simpa using h
  | none => simp [find_assign_self]

theorem index_index (m : NameMap) (k : Name) : (m.index k).1.index k = m.index k := by
  have h := find_index_self m k
  generalize m.index k = r at h ⊢
  obtain ⟨m', v⟩ := r
  simp only at h
  simp [index, h]

end NameMap

/-! ## Calls on a failed stream -/

namespace IVFS

theorem Read_failed_state (s : IVFS) (f : Handle) (buff : List Nat) (len : Nat)
    (hf : s.streamToBlob.failed = true) : (s.Read f buff len).1 = s := by
  unfold Read
  split
  · rfl
  · split
    · rfl
    · split
      · rfl
      · simp [FStream.seek_failed_eq _ _ hf, FStream.read_failed_eq _ _ hf]

/-- The relocation branch on a failed stream: nothing is written, the record moves to
the former `blobSize`, and `blobSize` becomes the `-1` returned by `tellg`. -/
theorem Write_reloc_failed (s : IVFS) (p : Nat) (file : File) (data : List Nat)
    (junk : Nat → Nat) (hp : s.heap[p]? = some file) (hw : file.isOpenForWriting = true)
    (hf : s.streamToBlob.failed = true)
    (hgrow : file.maxSize < (file.actSize + data.length) % SIZE_MOD) :
    s.Write (some p) data junk =
      (⟨s.heap.set p
          { file with beginning := s.blobSize,
                      maxSize := max ((data.length + file.actSize) % SIZE_MOD)
                        (file.maxSize * 2 % SIZE_MOD),
                      actSize := (file.actSize + data.length) % SIZE_MOD },
        s.nameMap, s.streamToBlob, SIZE_MOD - 1⟩, data.length) := by
  rw [Write_eq_reloc s p file data junk hp hw hgrow, Read_failed_state s _ _ _ hf,
    FStream.write_failed_eq _ _ hf, FStream.write_failed_eq _ _ hf,
    FStream.write_failed_eq _ _ hf, FStream.seekEnd_failed_eq _ hf]
  simp [FStream.tell, hf]

/-- The engine after `Create("a")`, `Open("a")`, a `Write` of more than 4096 (at most
8192) bytes and a `Read` that asks for more than 4096 bytes: the read came up short and
the stream has failed. -/
theorem run_single_fail (name : Name) (data buff : List Nat) (junk : Nat → Nat) (len : Nat)
    (h1 : 4096 < data.length) (h2 : data.length ≤ 8192) (h3 : 4096 < len) :
    IVFS.run IVFS.empty
        [.Create name, .Open name, .Write (some 0) data junk, .Read (some 0) buff len] =
      ⟨[⟨4096, data.length, 8192, true, true⟩], [(name, some 0)],
        ⟨data ++ zeros (8192 - data.length), 8192, true⟩, 8192⟩ := by
  have hrun : IVFS.run IVFS.empty
      [.Create name, .Open name, .Write (some 0) data junk, .Read (some 0) buff len] =
      ((IVFS.run IVFS.empty [.Create name, .Open name, .Write (some 0) data junk]).Read
          (some 0) buff len).1 := by
    simp [run, step]
  rw [hrun, run_create_open_write name data junk h1 h2,
    Read_eq ⟨[⟨4096, data.length, 8192, true, true⟩], _, _, _⟩ 0
      ⟨4096, data.length, 8192, true, true⟩ _ _ rfl rfl,
    FStream.seek_good _ _ rfl (by simp [OFF_LIMIT])]
  have hl : (data ++ zeros (8192 - data.length)).length = 8192 := by
    simp; omega
  simp only [FStream.read, List.length_take, List.length_drop, hl]
  have e1 : min (min len data.length) (8192 - 4096) = 4096 := by omega
  have e2 : (4096 != min len data.length) = true := by
    simp; omega
  simp [e1, e2]

end IVFS

/-! ## Creation of an absent name -/

namespace IVFS

/-- What `Create(name)` does for a name with no record, in every state: it returns a
non-null handle to a new record with offset `blobSize` (as before the call), size 0,
capacity 4096, open for writing and not for reading; afterwards the name maps to that
record, `blobSize` is 4096 larger modulo `2^64` (exactly 4096 larger when
`blobSize + 4096 < 2^64`), every record that existed is unchanged, and every other
name maps to what it mapped to before. -/
theorem Create_absent_effect (s : IVFS) (name : Name) (h : s.lookup name = none) :
    (s.Create name).2 = some s.heap.length ∧
    s.record (s.Create name).2 = none ∧
    (s.Create name).1.record (s.Create name).2
      = some ⟨s.blobSize, 0, 4096, false, true⟩ ∧
    (s.Create name).1.lookup name = (s.Create name).2 ∧
    (s.Create name).1.blobSize = (s.blobSize + 4096) % SIZE_MOD ∧
    (s.blobSize + 4096 < SIZE_MOD → (s.Create name).1.blobSize = s.blobSize + 4096) ∧
    (∀ (q : Nat) (f : File), s.heap[q]? = some f → (s.Create name).1.heap[q]? = some f) ∧
    (∀ n, n ≠ name → (s.Create name).1.lookup n = s.lookup n) := by
  rw [IVFS.Create_eq_new s name h]
  refine ⟨rfl, ?_, ?_, ?_, rfl, ?_, ?_, ?_⟩
  · simp [IVFS.record]
  · simp [IVFS.record]
  · simp [IVFS.lookup, NameMap.find_assign_self]
  · intro hlt
    exact Nat.mod_eq_of_lt hlt
  · intro q f hq
    have hlt : q < s.heap.length := by
      rcases Nat.lt_or_ge q s.heap.length with h | h
      · exact h
      · rw [List.getElem?_eq_none h] at hq; cases hq
    simp only []
    rw [List.getElem?_append_left hlt]
    exact hq
  · intro n hn
    simp only [IVFS.lookup]
    rw [NameMap.find_assign_ne _ _ _ _ hn]
    exact NameMap.join_find_index _ _ _

/-- Instance of `Create_absent_effect`: a third name created on `twoFiles`. -/
theorem Create_absent_effect_twoFiles :
    (twoFiles.Create [100]).2 = some twoFiles.heap.length ∧
    (twoFiles.Create [100]).1.record (twoFiles.Create [100]).2
      = some ⟨twoFiles.blobSize, 0, 4096, false, true⟩ ∧
    (twoFiles.Create [100]).1.blobSize = (twoFiles.blobSize + 4096) % SIZE_MOD :=
  ⟨(Create_absent_effect twoFiles [100] (by decide)).1,
    (Create_absent_effect twoFiles [100] (by decide)).2.2.1,
    (Create_absent_effect twoFiles [100] (by decide)).2.2.2.2.1⟩

end IVFS

/-! ## C8 -/

/-- C8 fails on the code.  On an empty engine, after `Create("a")`, `Open("a")`, a `Write`
of 5000 bytes, a `Read(h, 5000)` (short, so the stream's fail bit is set, and the engine
never clears it) and a second `Write` of 5000 bytes (a relocation, which stores the `-1`
returned by the failing `tellg` in `blobSize`), the name `b` has no record, the blob is
8192 bytes long and `blobSize` is `2^64 - 1`.  `Create("b")` then returns a handle to a
record with offset `2^64 - 1`, appends nothing (the blob is still 8192 bytes long), and
leaves `blobSize = 4095`, not 4096 more than before. -/
theorem C8_blobSize_wraps :
    (IVFS.run IVFS.empty
        [.Create [97], .Open [97], .Write (some 0) (List.replicate 5000 7) (fun _ => 0),
          .Read (some 0) [] 5000,
          .Write (some 0) (List.replicate 5000 7) (fun _ => 0)]).lookup [98] = none ∧
    (IVFS.run IVFS.empty
        [.Create [97], .Open [97], .Write (some 0) (List.replicate 5000 7) (fun _ => 0),
          .Read (some 0) [] 5000,
          .Write (some 0) (List.replicate 5000 7) (fun _ => 0)]).blobSize
      = 18446744073709551615 ∧
    (IVFS.run IVFS.empty
        [.Create [97], .Open [97], .Write (some 0) (List.replicate 5000 7) (fun _ => 0),
          .Read (some 0) [] 5000,
          .Write (some 0) (List.replicate 5000 7)
            (fun _ => 0)]).streamToBlob.content.length = 8192 ∧
    ((IVFS.run IVFS.empty
        [.Create [97], .Open [97], .Write (some 0) (List.replicate 5000 7) (fun _ => 0),
          .Read (some 0) [] 5000,
          .Write (some 0) (List.replicate 5000 7) (fun _ => 0)]).Create [98]).2 = some 1 ∧
    ((IVFS.run IVFS.empty
        [.Create [97], .Open [97], .Write (some 0) (List.replicate 5000 7) (fun _ => 0),
          .Read (some 0) [] 5000,
          .Write (some 0) (List.replicate 5000 7) (fun _ => 0)]).Create [98]).1.record (some 1)
      = some ⟨18446744073709551615, 0, 4096, false, true⟩ ∧
    ((IVFS.run IVFS.empty
        [.Create [97], .Open [97], .Write (some 0) (List.replicate 5000 7) (fun _ => 0),
          .Read (some 0) [] 5000,
          .Write (some 0) (List.replicate 5000 7)
            (fun _ => 0)]).Create [98]).1.streamToBlob.content.length = 8192 ∧
    ((IVFS.run IVFS.empty
        [.Create [97], .Open [97], .Write (some 0) (List.replicate 5000 7) (fun _ => 0),
          .Read (some 0) [] 5000,
          .Write (some 0) (List.replicate 5000 7) (fun _ => 0)]).Create [98]).1.blobSize
      = 4095 := by
  have hl : (List.replicate 5000 7).length = 5000 := List.length_replicate _ _
  generalize List.replicate 5000 7 = data at hl ⊢
  have hS : IVFS.run IVFS.empty
      [.Create [97], .Open [97], .Write (some 0) data (fun _ => 0), .Read (some 0) [] 5000,
        .Write (some 0) data (fun _ => 0)] =
      ⟨[⟨8192, 10000, 16384, true, true⟩], [([97], some 0)],
        ⟨data ++ zeros 3192, 8192, true⟩, 18446744073709551615⟩ := by
    have hrun : IVFS.run IVFS.empty
        [.Create [97], .Open [97], .Write (some 0) data (fun _ => 0), .Read (some 0) [] 5000,
          .Write (some 0) data (fun _ => 0)] =
        ((IVFS.run IVFS.empty
          [.Create [97], .Open [97], .Write (some 0) data (fun _ => 0),
            .Read (some 0) [] 5000]).Write (some 0) data (fun _ => 0)).1 := by
      simp [IVFS.run, IVFS.step]
    rw [hrun, IVFS.run_single_fail [97] data [] _ 5000 (by omega) (by omega) (by omega),
      IVFS.Write_reloc_failed ⟨[⟨4096, data.length, 8192, true, true⟩], _, ⟨_, _, true⟩, _⟩ 0
        ⟨4096, data.length, 8192, true, true⟩ data _ rfl rfl rfl
        (by simp [hl, SIZE_MOD])]
    simp [hl, SIZE_MOD]
  rw [hS, IVFS.Create_eq_new _ _ (by simp [IVFS.lookup, NameMap.find]),
    FStream.write_failed_eq _ _ rfl]
  refine ⟨?_, rfl, ?_, rfl, rfl, ?_, ?_⟩
  · simp [IVFS.lookup, NameMap.find]
  · simp [hl]
  · simp [hl]
  · simp [SIZE_MOD]

/-! ## C2, second slip -/

namespace IVFS

/-- What the relocation branch of `Write` does for a handle that is not open for
reading, on a good stream whose position lies inside the blob: the inner `Read` returns
0 without touching `buffRead`, so the image written (at the current position) starts
with the indeterminate bytes `junk` instead of the old content. -/
theorem Write_reloc_closed (s : IVFS) (p : Nat) (file : File) (data : List Nat)
    (junk : Nat → Nat) (img blob : List Nat)
    (hp : s.heap[p]? = some file) (hw : file.isOpenForWriting = true)
    (hr : file.isOpenForReading = false) (hgood : s.streamToBlob.failed = false)
    (hpos : s.streamToBlob.pos ≤ s.streamToBlob.content.length)
    (hgrow : file.maxSize < file.actSize + data.length)
    (hsum : file.actSize + data.length < SIZE_MOD) (hdbl : 2 * file.maxSize < SIZE_MOD)
    (himg : img = (List.range file.actSize).map junk ++ data ++
      zeros (max (data.length + file.actSize) (2 * file.maxSize)
        - (file.actSize + data.length)))
    (hblob : blob = s.streamToBlob.content.take s.streamToBlob.pos ++ img ++
      s.streamToBlob.content.drop (s.streamToBlob.pos + img.length)) :
    s.Write (some p) data junk =
      (⟨s.heap.set p
          { file with beginning := s.blobSize,
                      maxSize := max (data.length + file.actSize) (2 * file.maxSize),
                      actSize := file.actSize + data.length },
        s.nameMap, ⟨blob, blob.length, false⟩, blob.length⟩, data.length) := by
  have hm1 : (file.actSize + data.length) % SIZE_MOD = file.actSize + data.length :=
    Nat.mod_eq_of_lt hsum
  have hm2 : (data.length + file.actSize) % SIZE_MOD = data.length + file.actSize := by
    rw [Nat.add_comm]; exact hm1
  have hm3 : file.maxSize * 2 % SIZE_MOD = 2 * file.maxSize := by
    rw [Nat.mul_comm]; exact Nat.mod_eq_of_lt hdbl
  rw [Write_eq_reloc s p file data junk hp hw (by rw [hm1]; exact hgrow),
    Read_eq_closed s p file _ _ hp hr]
  simp only [hm1, hm2, hm3]
  rw [FStream.write_write _ _ _ hgood hpos, FStream.write_write _ _ _ hgood hpos,
    FStream.write_le _ _ hgood hpos, FStream.seekEnd_good _ rfl, ← himg, ← hblob]
  rfl

/-- The engine after `Create("a")`, `Write(h, [1, 2, 3])` and a second `Write` of
4094 bytes through the same handle, never opened for reading. -/
theorem run_closed_reloc (data : List Nat) (junk : Nat → Nat) (h1 : data.length = 4094) :
    IVFS.run IVFS.empty
        [.Create [97], .Write (some 0) [1, 2, 3] junk, .Write (some 0) data junk] =
      ⟨[⟨4096, 4097, 8192, false, true⟩], [([97], some 0)],
        ⟨[1, 2, 3] ++ ([junk 0, junk 1, junk 2] ++ data ++ zeros 4095), 8195, false⟩,
        8195⟩ := by
  have hrun : IVFS.run IVFS.empty
      [.Create [97], .Write (some 0) [1, 2, 3] junk, .Write (some 0) data junk] =
      (((IVFS.empty.Create [97]).1.Write (some 0) [1, 2, 3] junk).1.Write
          (some 0) data junk).1 := by
    simp [IVFS.run, IVFS.step]
  have hW : (⟨[⟨0, 0, 4096, false, true⟩], [([97], some 0)], ⟨zeros 4096, 4096, false⟩, 4096⟩ :
      IVFS).Write (some 0) [1, 2, 3] junk =
      (⟨[⟨0, 3, 4096, false, true⟩], [([97], some 0)], ⟨[1, 2, 3] ++ zeros 4093, 3, false⟩,
        4096⟩, 3) := by
    rw [IVFS.Write_inplace_good ⟨[⟨0, 0, 4096, false, true⟩], _, ⟨zeros 4096, _, false⟩, _⟩ 0
      ⟨0, 0, 4096, false, true⟩ [1, 2, 3] junk rfl rfl (by decide) (by simp) rfl (by simp [OFF_LIMIT])]
    simp [SIZE_MOD, drop_zeros]
  have hmax : max (data.length + 3) (2 * 4096) = 8192 := by omega
  have himg : [junk 0, junk 1, junk 2] ++ data ++ zeros 4095 =
      (List.range 3).map junk ++ data ++
        zeros (max (data.length + 3) (2 * 4096) - (3 + data.length)) := by
    rw [hmax, h1]
    rfl
  have hil : ([junk 0, junk 1, junk 2] ++ data ++ zeros 4095).length = 8192 := by
    simp [h1]
  have hblob : [1, 2, 3] ++ ([junk 0, junk 1, junk 2] ++ data ++ zeros 4095) =
      ([1, 2, 3] ++ zeros 4093).take 3 ++ ([junk 0, junk 1, junk 2] ++ data ++ zeros 4095) ++
        ([1, 2, 3] ++ zeros 4093).drop
          (3 + ([junk 0, junk 1, junk 2] ++ data ++ zeros 4095).length) := by
    rw [hil, List.drop_eq_nil_of_le (by simp)]
    simp
  have hlen : ([1, 2, 3] ++ ([junk 0, junk 1, junk 2] ++ data ++ zeros 4095)).length = 8195 := by
    simp [h1]
  rw [hrun, Create_empty, hW, Write_reloc_closed
    ⟨[⟨0, 3, 4096, false, true⟩], _, ⟨[1, 2, 3] ++ zeros 4093, 3, false⟩, _⟩
    0 ⟨0, 3, 4096, false, true⟩ data junk
    ([junk 0, junk 1, junk 2] ++ data ++ zeros 4095)
    ([1, 2, 3] ++ ([junk 0, junk 1, junk 2] ++ data ++ zeros 4095)) rfl rfl rfl rfl (by simp)
    (by simp only []; omega) (by simp only [SIZE_MOD]; omega) (by simp [SIZE_MOD])
    himg hblob]
  simp only [hmax, hlen]
  simp [h1]

end IVFS

/-! ## C2 -/

/-- C2 fails on the code, in two ways.

Handle also open for reading: on an empty engine, after `Create("a")`, `Open("a")` and a
`Write` of 5000 bytes `7` through the handle, the record has offset 4096, size 5000 and
capacity 8192, but the data was written at the start of the blob (where the inner
`Read` left the stream position): the blob holds the 5000 bytes followed by 3192 zero
bytes and is 8192 bytes long, it grew by 4096 and not by the new capacity 8192, and
`Read(h, 5000)` returns 4096 bytes (904 bytes `7`, then zeros) instead of the 5000
bytes written.

Handle not open for reading: after `Create("a")`, `Write(h, [1, 2, 3])` and a `Write` of
4094 bytes `7`, with `buffRead` holding bytes `9` before the inner `Read` (which returns
0 and leaves them), the record has offset 4096, size 4097 and capacity 8192, and the
blob is `1, 2, 3`, then `9, 9, 9`, the data and 4095 zeros (8195 bytes): the image
starts at position 3 with the bytes of the uninitialised buffer, not the old content. -/
theorem C2_relocation_misplaces_content :
    ((IVFS.run IVFS.empty
        [.Create [97], .Open [97], .Write (some 0) (List.replicate 5000 7) (fun _ => 0)]).heap
        = [⟨4096, 5000, 8192, true, true⟩] ∧
      (IVFS.run IVFS.empty
        [.Create [97], .Open [97], .Write (some 0) (List.replicate 5000 7)
          (fun _ => 0)]).streamToBlob.content
        = List.replicate 5000 7 ++ zeros 3192 ∧
      (IVFS.run IVFS.empty
        [.Create [97], .Open [97], .Write (some 0) (List.replicate 5000 7)
          (fun _ => 0)]).blobSize = 8192 ∧
      ((IVFS.run IVFS.empty
        [.Create [97], .Open [97], .Write (some 0) (List.replicate 5000 7) (fun _ => 0)]).Read
          (some 0) [] 5000).2
        = ((List.replicate 5000 7).drop 4096 ++ zeros 3192, 4096)) ∧
    ((IVFS.run IVFS.empty
        [.Create [97], .Write (some 0) [1, 2, 3] (fun _ => 9),
          .Write (some 0) (List.replicate 4094 7) (fun _ => 9)]).heap
        = [⟨4096, 4097, 8192, false, true⟩] ∧
      (IVFS.run IVFS.empty
        [.Create [97], .Write (some 0) [1, 2, 3] (fun _ => 9),
          .Write (some 0) (List.replicate 4094 7) (fun _ => 9)]).streamToBlob.content
        = [1, 2, 3] ++ ([9, 9, 9] ++ List.replicate 4094 7 ++ zeros 4095) ∧
      (IVFS.run IVFS.empty
        [.Create [97], .Write (some 0) [1, 2, 3] (fun _ => 9),
          .Write (some 0) (List.replicate 4094 7) (fun _ => 9)]).blobSize = 8195) := by
  constructor
  · have hl : (List.replicate 5000 7).length = 5000 := List.length_replicate _ _
    generalize List.replicate 5000 7 = data at hl ⊢
    rw [IVFS.run_create_open_write [97] data _ (by omega) (by omega), hl]
    refine ⟨rfl, rfl, rfl, ?_⟩
    rw [IVFS.Read_eq ⟨[⟨4096, 5000, 8192, true, true⟩], _, _, _⟩ 0
      ⟨4096, 5000, 8192, true, true⟩ _ _ rfl rfl, FStream.seek_good _ _ rfl (by simp [OFF_LIMIT])]
    have hdrop : List.drop 4096 (data ++ zeros 3192) = List.drop 4096 data ++ zeros 3192 :=
      List.drop_append_of_le_length (by omega)
    have htake : List.take 5000 (List.drop 4096 data ++ zeros 3192)
        = List.drop 4096 data ++ zeros 3192 :=
      List.take_of_length_le (by simp; omega)
    simp [FStream.read, hl, hdrop, htake]
  · have hl : (List.replicate 4094 7).length = 4094 := List.length_replicate _ _
    generalize List.replicate 4094 7 = data at hl ⊢
    rw [IVFS.run_closed_reloc data _ hl]
    exact ⟨rfl, rfl, rfl⟩

/-! ## C9 -/

/-- The engine after `Create("a")`, `Create("b")`, `Write(b, [9, 9, 9])` and
`Write(a, [1])` on an empty engine: both writes were in place and the stream position
is 1, behind the byte written last. -/
theorem IVFS.run_two_small_writes (junk : Nat → Nat) :
    IVFS.run IVFS.empty
        [.Create [97], .Create [98], .Write (some 1) [9, 9, 9] junk, .Write (some 0) [1] junk] =
      ⟨[⟨0, 1, 4096, false, true⟩, ⟨4096, 3, 4096, false, true⟩],
        [([97], some 0), ([98], some 1)],
        ⟨[1] ++ zeros 4095 ++ ([9, 9, 9] ++ zeros 4093), 1, false⟩, 8192⟩ := by
  have hrun : IVFS.run IVFS.empty
      [.Create [97], .Create [98], .Write (some 1) [9, 9, 9] junk, .Write (some 0) [1] junk] =
      (((IVFS.run IVFS.empty [.Create [97], .Create [98]]).Write (some 1) [9, 9, 9] junk).1.Write
          (some 0) [1] junk).1 := by
    simp [IVFS.run, IVFS.step]
  have hW1 : (⟨[⟨0, 0, 4096, false, true⟩, ⟨4096, 0, 4096, false, true⟩],
        [([97], some 0), ([98], some 1)], ⟨zeros 4096 ++ zeros 4096, 8192, false⟩, 8192⟩ :
      IVFS).Write (some 1) [9, 9, 9] junk =
      (⟨[⟨0, 0, 4096, false, true⟩, ⟨4096, 3, 4096, false, true⟩],
        [([97], some 0), ([98], some 1)],
        ⟨zeros 4096 ++ ([9, 9, 9] ++ zeros 4093), 4099, false⟩, 8192⟩, 3) := by
    rw [IVFS.Write_inplace_good
      ⟨[⟨0, 0, 4096, false, true⟩, ⟨4096, 0, 4096, false, true⟩], _,
        ⟨zeros 4096 ++ zeros 4096, _, false⟩, _⟩ 1
      ⟨4096, 0, 4096, false, true⟩ [9, 9, 9] junk rfl rfl (by decide) (by simp) rfl (by simp [OFF_LIMIT])]
    simp only [List.take_left' (length_zeros 4096)]
    have hd : List.drop (4096 + [9, 9, 9].length) (zeros 4096 ++ zeros 4096) = zeros 4093 := by
      rw [List.drop_append_eq_append_drop, drop_zeros, drop_zeros]
      simp [zeros_zero]
    rw [hd]
    simp [SIZE_MOD]
  have hW2 : (⟨[⟨0, 0, 4096, false, true⟩, ⟨4096, 3, 4096, false, true⟩],
        [([97], some 0), ([98], some 1)],
        ⟨zeros 4096 ++ ([9, 9, 9] ++ zeros 4093), 4099, false⟩, 8192⟩ :
      IVFS).Write (some 0) [1] junk =
      (⟨[⟨0, 1, 4096, false, true⟩, ⟨4096, 3, 4096, false, true⟩],
        [([97], some 0), ([98], some 1)],
        ⟨[1] ++ zeros 4095 ++ ([9, 9, 9] ++ zeros 4093), 1, false⟩, 8192⟩, 1) := by
    rw [IVFS.Write_inplace_good
      ⟨[⟨0, 0, 4096, false, true⟩, ⟨4096, 3, 4096, false, true⟩], _,
        ⟨zeros 4096 ++ ([9, 9, 9] ++ zeros 4093), _, false⟩, _⟩ 0
      ⟨0, 0, 4096, false, true⟩ [1] junk rfl rfl (by decide) (by simp) rfl (by simp [OFF_LIMIT])]
    have hd : List.drop (0 + [1].length) (zeros 4096 ++ ([9, 9, 9] ++ zeros 4093))
        = zeros 4095 ++ ([9, 9, 9] ++ zeros 4093) := by
      rw [List.drop_append_of_le_length (by simp), drop_zeros]
      simp
    rw [hd]
    simp [SIZE_MOD]
  rw [hrun, IVFS.run_create_create, hW1, hW2]

/-- The engine after `Create("a")`, `Open("a")`, `Write(h, [1, 2, 3])` and
`Read(h, 1)` on an empty engine: the stream position is 1. -/
theorem IVFS.run_small_write_read (buff : List Nat) (junk : Nat → Nat) :
    IVFS.run IVFS.empty
        [.Create [97], .Open [97], .Write (some 0) [1, 2, 3] junk, .Read (some 0) buff 1] =
      ⟨[⟨0, 3, 4096, true, true⟩], [([97], some 0)],
        ⟨[1, 2, 3] ++ zeros 4093, 1, false⟩, 4096⟩ := by
  have hrun : IVFS.run IVFS.empty
      [.Create [97], .Open [97], .Write (some 0) [1, 2, 3] junk, .Read (some 0) buff 1] =
      (((IVFS.run IVFS.empty [.Create [97], .Open [97]]).Write (some 0) [1, 2, 3] junk).1.Read
          (some 0) buff 1).1 := by
    simp [IVFS.run, IVFS.step]
  have hW : (⟨[⟨0, 0, 4096, true, true⟩], [([97], some 0)], ⟨zeros 4096, 4096, false⟩, 4096⟩ :
      IVFS).Write (some 0) [1, 2, 3] junk =
      (⟨[⟨0, 3, 4096, true, true⟩], [([97], some 0)], ⟨[1, 2, 3] ++ zeros 4093, 3, false⟩,
        4096⟩, 3) := by
    rw [IVFS.Write_inplace_good ⟨[⟨0, 0, 4096, true, true⟩], _, ⟨zeros 4096, _, false⟩, _⟩ 0
      ⟨0, 0, 4096, true, true⟩ [1, 2, 3] junk rfl rfl (by decide) (by simp) rfl (by simp [OFF_LIMIT])]
    simp [SIZE_MOD, drop_zeros]
  rw [hrun, IVFS.run_create_open, hW,
    IVFS.Read_eq ⟨[⟨0, 3, 4096, true, true⟩], _, _, _⟩ 0 ⟨0, 3, 4096, true, true⟩ _ _
      rfl rfl,
    FStream.seek_good _ _ rfl (by simp [OFF_LIMIT]), FStream.read_good _ _ rfl (by simp)]
  simp

/-- C9 fails on the code.  `Create` on an absent name writes its 4096 zero bytes at the
current position of the blob stream, not at the end of the blob.

After `Create("a")`, `Create("b")`, `Write(b, [9, 9, 9])` and `Write(a, [1])` on an empty
engine the blob is `1`, 4095 zeros, `9, 9, 9`, 4093 zeros (8192 bytes) and the position
is 1; `Create("c")` then turns the blob into `1`, 4096 zeros, `9, 9`, 4093 zeros: the
existing byte at 4096 (the first byte of `b`) changed from 9 to 0, the blob is still
8192 bytes long, and the new record has offset 8192 and capacity 4096, a region of
which no byte exists, while `blobSize` became 12288.

After `Create("a")`, `Open("a")`, `Write(h, [1, 2, 3])` and `Read(h, 1)` the blob is
`1, 2, 3` and 4093 zeros and the position is 1; `Create("b")` turns it into `1` and 4096
zeros: the bytes `2, 3` are lost and the blob is 1 byte longer, not 4096. -/
theorem C9_create_writes_at_stream_position :
    ((IVFS.run IVFS.empty
        [.Create [97], .Create [98], .Write (some 1) [9, 9, 9] (fun _ => 0),
          .Write (some 0) [1] (fun _ => 0)]).streamToBlob.content
        = [1] ++ zeros 4095 ++ ([9, 9, 9] ++ zeros 4093) ∧
      (IVFS.run IVFS.empty
        [.Create [97], .Create [98], .Write (some 1) [9, 9, 9] (fun _ => 0),
          .Write (some 0) [1] (fun _ => 0)]).lookup [99] = none ∧
      ((IVFS.run IVFS.empty
        [.Create [97], .Create [98], .Write (some 1) [9, 9, 9] (fun _ => 0),
          .Write (some 0) [1] (fun _ => 0)]).Create [99]).1.streamToBlob.content
        = [1] ++ zeros 4096 ++ ([9, 9] ++ zeros 4093) ∧
      (IVFS.run IVFS.empty
        [.Create [97], .Create [98], .Write (some 1) [9, 9, 9] (fun _ => 0),
          .Write (some 0) [1] (fun _ => 0)]).streamToBlob.content[4096]? = some 9 ∧
      ((IVFS.run IVFS.empty
        [.Create [97], .Create [98], .Write (some 1) [9, 9, 9] (fun _ => 0),
          .Write (some 0) [1] (fun _ => 0)]).Create [99]).1.streamToBlob.content[4096]?
        = some 0 ∧
      (IVFS.run IVFS.empty
        [.Create [97], .Create [98], .Write (some 1) [9, 9, 9] (fun _ => 0),
          .Write (some 0) [1] (fun _ => 0)]).streamToBlob.content.length = 8192 ∧
      ((IVFS.run IVFS.empty
        [.Create [97], .Create [98], .Write (some 1) [9, 9, 9] (fun _ => 0),
          .Write (some 0) [1] (fun _ => 0)]).Create [99]).1.streamToBlob.content.length
        = 8192 ∧
      ((IVFS.run IVFS.empty
        [.Create [97], .Create [98], .Write (some 1) [9, 9, 9] (fun _ => 0),
          .Write (some 0) [1] (fun _ => 0)]).Create [99]).1.heap[2]?
        = some ⟨8192, 0, 4096, false, true⟩ ∧
      ((IVFS.run IVFS.empty
        [.Create [97], .Create [98], .Write (some 1) [9, 9, 9] (fun _ => 0),
          .Write (some 0) [1] (fun _ => 0)]).Create [99]).1.blobSize = 12288) ∧
    ((IVFS.run IVFS.empty
        [.Create [97], .Open [97], .Write (some 0) [1, 2, 3] (fun _ => 0),
          .Read (some 0) [0] 1]).streamToBlob.content = [1, 2, 3] ++ zeros 4093 ∧
      (IVFS.run IVFS.empty
        [.Create [97], .Open [97], .Write (some 0) [1, 2, 3] (fun _ => 0),
          .Read (some 0) [0] 1]).lookup [98] = none ∧
      ((IVFS.run IVFS.empty
        [.Create [97], .Open [97], .Write (some 0) [1, 2, 3] (fun _ => 0),
          .Read (some 0) [0] 1]).Create [98]).1.streamToBlob.content = [1] ++ zeros 4096 ∧
      ((IVFS.run IVFS.empty
        [.Create [97], .Open [97], .Write (some 0) [1, 2, 3] (fun _ => 0),
          .Read (some 0) [0] 1]).Create [98]).1.streamToBlob.content.length = 4097 ∧
      ((IVFS.run IVFS.empty
        [.Create [97], .Open [97], .Write (some 0) [1, 2, 3] (fun _ => 0),
          .Read (some 0) [0] 1]).Create [98]).1.heap[1]?
        = some ⟨4096, 0, 4096, false, true⟩) := by
  constructor
  · rw [IVFS.run_two_small_writes,
      IVFS.Create_eq_new _ _ (by simp [IVFS.lookup, NameMap.find]),
      FStream.write_le _ _ rfl (by simp)]
    have hnew : List.take 1 ([1] ++ zeros 4095 ++ ([9, 9, 9] ++ zeros 4093)) ++ zeros 4096 ++
        List.drop (1 + (zeros 4096).length) ([1] ++ zeros 4095 ++ ([9, 9, 9] ++ zeros 4093))
        = [1] ++ zeros 4096 ++ ([9, 9] ++ zeros 4093) := by
      have h1 : List.take 1 ([1] ++ zeros 4095 ++ ([9, 9, 9] ++ zeros 4093)) = [1] := by
        simp
      have h2 : List.drop (1 + (zeros 4096).length)
          ([1] ++ zeros 4095 ++ ([9, 9, 9] ++ zeros 4093)) = [9, 9] ++ zeros 4093 := by
        have e : 1 + (zeros 4096).length = ([1] ++ zeros 4095).length + 1 := by simp
        rw [e, List.drop_append]
        simp
      rw [h1, h2]
    simp only [hnew]
    have hb : ([1] ++ zeros 4095 ++ ([9, 9, 9] ++ zeros 4093))[4096]? = some 9 := by
      rw [List.getElem?_append_right (by simp)]
      simp
    have ha : ([1] ++ zeros 4096 ++ ([9, 9] ++ zeros 4093))[4096]? = some 0 := by
      rw [List.getElem?_append_left (by simp), List.getElem?_append_right (by simp)]
      simp only [List.length_singleton]
      exact zeros_getElem? _ _ (by omega)
    refine ⟨trivial, by simp [IVFS.lookup, NameMap.find], trivial, hb, ha, by simp, by simp,
      by simp, by simp [SIZE_MOD]⟩
  · rw [IVFS.run_small_write_read,
      IVFS.Create_eq_new _ _ (by simp [IVFS.lookup, NameMap.find]),
      FStream.write_le _ _ rfl (by simp)]
    refine ⟨rfl, by simp [IVFS.lookup, NameMap.find], ?_, ?_, by simp⟩
    · simp only [length_zeros]
      rw [List.drop_eq_nil_of_le (by simp)]
      simp
    · simp

/-! ## C10 -/

theorem set_eq_self_of_getElem? {α : Type} (l : List α) (p : Nat) (a : α)
    (h : l[p]? = some a) : l.set p a = l := by
  apply List.ext_getElem?
  intro i
  by_cases hi : p = i
  · subst hi
    rw [List.getElem?_set_self', h]
    simp
  · rw [List.getElem?_set_ne hi]

namespace IVFS

/-- The result of `Open` in terms of the pointer stored under the name. -/
theorem Open_eq (s : IVFS) (name : Name) :
    s.Open name =
      match s.lookup name with
      | none => ({ s with nameMap := (s.nameMap.index name).1 }, none)
      | some p =>
        match s.heap[p]? with
        | none => ({ s with nameMap := (s.nameMap.index name).1 }, some p)
        | some f =>
          ({ s with nameMap := (s.nameMap.index name).1,
                    heap := s.heap.set p { f with isOpenForReading := true } }, some p) := by
  have h2 : (s.nameMap.index name).2 = s.lookup name := NameMap.index_snd _ _
  unfold Open
  generalize s.nameMap.index name = r at h2 ⊢
  obtain ⟨m, v⟩ := r
  simp only at h2
  subst h2
  generalize s.lookup name = v
  cases v with
  | none => rfl
  | some p =>
    simp only []
    cases hf : s.heap[p]? with
    | none => rfl
    | some f =>
      simp only []
      by_cases hr : f.isOpenForReading = true
      · have : ({ f with isOpenForReading := true } : File) = f := by
          cases f; simp_all
        simp [hr, this, set_eq_self_of_getElem? _ _ _ hf]
      · simp [hr]

theorem lookup_index (s : IVFS) (name n : Name) (heap : List File) (st : FStream)
    (size : Nat) :
    (IVFS.mk heap (s.nameMap.index name).1 st size).lookup n = s.lookup n := by
  simp only [lookup]
  exact NameMap.join_find_index _ _ _

end IVFS

/-- C10: `Open(name)` returns `nullptr` exactly when the name has no record, and
otherwise the pointer stored under the name; the record it points to has its
read flag set and its offset, size, capacity and write flag unchanged; every other
record, the blob stream (all bytes and the position) and `blobSize` are unchanged,
every name maps to the record it mapped to before, and a second `Open(name)` returns
the same handle and leaves the state as the first one left it. -/
theorem C10_open_postcondition (s : IVFS) (name : Name) :
    ((s.Open name).2 = none ↔ s.lookup name = none) ∧
    (s.Open name).2 = s.lookup name ∧
    (∀ (p : Nat) (f : File), s.lookup name = some p → s.heap[p]? = some f →
      (s.Open name).1.heap[p]? = some { f with isOpenForReading := true }) ∧
    (∀ (q : Nat), s.lookup name ≠ some q → (s.Open name).1.heap[q]? = s.heap[q]?) ∧
    (s.Open name).1.heap.length = s.heap.length ∧
    (s.Open name).1.streamToBlob = s.streamToBlob ∧
    (s.Open name).1.blobSize = s.blobSize ∧
    (∀ n, (s.Open name).1.lookup n = s.lookup n) ∧
    (s.Open name).1.Open name = s.Open name := by
  have hidem : (s.Open name).1.Open name = s.Open name := by
    rw [IVFS.Open_eq (s.Open name).1 name]
    rw [IVFS.Open_eq s name]
    cases hl : s.lookup name with
    | none =>
      simp only [IVFS.lookup_index, hl, NameMap.index_index]
    | some p =>
      simp only []
      cases hf : s.heap[p]? with
      | none =>
        simp only [IVFS.lookup_index, hl, hf, NameMap.index_index]
      | some f =>
        have hlt : p < s.heap.length := by
          rcases Nat.lt_or_ge p s.heap.length with h | h
          · exact h
          · rw [List.getElem?_eq_none h] at hf; cases hf
        simp only [IVFS.lookup_index, hl, NameMap.index_index, List.getElem?_set_self hlt,
          List.set_set]
  rw [IVFS.Open_eq s name] at hidem ⊢
  cases hl : s.lookup name with
  | none =>
    rw [hl] at hidem
    refine ⟨by simp, rfl, ?_, ?_, rfl, rfl, rfl, ?_, hidem⟩
    · intro p f h; cases h
    · intro q _; rfl
    · intro n; exact IVFS.lookup_index s name n _ _ _
  | some p =>
    rw [hl] at hidem
    simp only [] at hidem ⊢
    cases hf : s.heap[p]? with
    | none =>
      rw [hf] at hidem
      refine ⟨by simp, rfl, ?_, ?_, rfl, rfl, rfl, ?_, hidem⟩
      · intro p' f h hp'
        cases h
        rw [hf] at hp'; cases hp'
      · intro q _; rfl
      · intro n; exact IVFS.lookup_index s name n _ _ _
    | some f =>
      rw [hf] at hidem
      have hlt : p < s.heap.length := by
        rcases Nat.lt_or_ge p s.heap.length with h | h
        · exact h
        · rw [List.getElem?_eq_none h] at hf; cases hf
      refine ⟨by simp, rfl, ?_, ?_, by simp, rfl, rfl, ?_, hidem⟩
      · intro p' f' h hp'
        cases h
        rw [hf] at hp'; cases hp'
        exact List.getElem?_set_self hlt
      · intro q hq
        exact List.getElem?_set_ne (fun h => hq (by rw [h]))
      · intro n
        exact IVFS.lookup_index s name n _ _ _

/-- Instance of `C10_open_postcondition`: opening the file `a` of `twoFiles`. -/
theorem C10_open_postcondition_witness :
    (IVFS.twoFiles.Open [97]).2 = IVFS.twoFiles.lookup [97] ∧
    (IVFS.twoFiles.Open [97]).1.Open [97] = IVFS.twoFiles.Open [97] :=
  ⟨(C10_open_postcondition IVFS.twoFiles [97]).2.1,
   (C10_open_postcondition IVFS.twoFiles [97]).2.2.2.2.2.2.2.2⟩

/-! ## Key order of the name map -/

theorem nameLt_irrefl (a : Name) : nameLt a a = false := by
  induction a with
  | nil => rfl
  | cons x xs ih => simp [nameLt, ih]

theorem nameLt_trans (a b d : Name) (h1 : nameLt a b = true) (h2 : nameLt b d = true) :
    nameLt a d = true := by
  induction a generalizing b d with
  | nil =>
    cases b with
    | nil => simp [nameLt] at h1
    | cons y ys =>
      cases d with
      | nil => simp [nameLt] at h2
      | cons z zs => simp [nameLt]
  | cons x xs ih =>
    cases b with
    | nil => simp [nameLt] at h1
    | cons y ys =>
      cases d with
      | nil => simp [nameLt] at h2
      | cons z zs =>
        simp only [nameLt, Bool.or_eq_true, decide_eq_true_eq, Bool.and_eq_true,
          beq_iff_eq] at h1 h2 ⊢
        rcases h1 with h1 | ⟨e1, h1⟩
        · rcases h2 with h2 | ⟨e2, _⟩
          · left; omega
          · left; omega
        · rcases h2 with h2 | ⟨e2, h2⟩
          · left; omega
          · right; exact ⟨by omega, ih ys zs h1 h2⟩

theorem nameLt_total (a b : Name) : a = b ∨ nameLt a b = true ∨ nameLt b a = true := by
  induction a generalizing b with
  | nil =>
    cases b with
    | nil => left; rfl
    | cons y ys => right; left; rfl
  | cons x xs ih =>
    cases b with
    | nil => right; right; rfl
    | cons y ys =>
      simp only [nameLt, Bool.or_eq_true, decide_eq_true_eq, Bool.and_eq_true, beq_iff_eq,
        List.cons.injEq]
      rcases Nat.lt_trichotomy x y with h | h | h
      · right; left; left; exact h
      · rcases ih ys with e | e | e
        · left; exact ⟨h, e⟩
        · right; left; right; exact ⟨h, e⟩
        · right; right; right; exact ⟨h.symm, e⟩
      · right; right; left; exact h

namespace NameMap

theorem mem_assign (m : NameMap) (k : Name) (v : Handle) (e : Name × Handle)
    (he : e ∈ m.assign k v) : e = (k, v) ∨ e ∈ m := by
  induction m with
  | nil =>
    simp only [assign, List.mem_singleton] at he
    exact Or.inl he
  | cons e' rest ih =>
    obtain ⟨k', v'⟩ := e'
    unfold assign at he
    by_cases h1 : k' = k
    · simp only [h1, if_true, List.mem_cons] at he
      exact he.elim Or.inl (fun h => Or.inr (List.mem_cons_of_mem _ h))
    · by_cases h2 : nameLt k k' = true
      · simp only [h1, h2, if_true, if_false, List.mem_cons] at he
        exact he.elim Or.inl (fun h => Or.inr (List.mem_cons.2 h))
      · simp only [h1, h2, if_false, List.mem_cons, Bool.false_eq_true] at he
        refine he.elim (fun h => Or.inr (List.mem_cons.2 (Or.inl h))) (fun h => ?_)
        exact (ih h).elim Or.inl (fun h' => Or.inr (List.mem_cons_of_mem _ h'))

theorem assign_keysOrdered (m : NameMap) (k : Name) (v : Handle) (h : KeysOrdered m) :
    KeysOrdered (m.assign k v) := by
  induction m with
  | nil => simp [assign, KeysOrdered]
  | cons e rest ih =>
    obtain ⟨k', v'⟩ := e
    unfold KeysOrdered at h ih ⊢
    rw [List.pairwise_cons] at h
    unfold assign
    by_cases h1 : k' = k
    · subst h1
      simp only [if_true]
      exact List.pairwise_cons.2 ⟨h.1, h.2⟩
    · by_cases h2 : nameLt k k' = true
      · simp only [h1, h2, if_true, if_false]
        refine List.pairwise_cons.2 ⟨?_, List.pairwise_cons.2 h⟩
        intro e he
        refine (List.mem_cons.1 he).elim (fun h' => ?_) (fun h' => ?_)
        · rw [h']; exact h2
        · exact nameLt_trans _ _ _ h2 (h.1 e h')
      · simp only [h1, h2, if_false, Bool.false_eq_true]
        refine List.pairwise_cons.2 ⟨?_, ih h.2⟩
        intro e he
        refine (mem_assign rest k v e he).elim (fun h' => ?_) (fun h' => ?_)
        · rw [h']
          rcases nameLt_total k' k with t | t | t
          · exact absurd t h1
          · exact t
          · exact absurd t h2
        · exact h.1 e h'

theorem index_keysOrdered (m : NameMap) (k : Name) (h : KeysOrdered m) :
    KeysOrdered (m.index k).1 := by
  unfold index
  cases m.find k with
  | some v => exact h
  | none => exact assign_keysOrdered m k none h

end NameMap

namespace IVFS

theorem Open_keysOrdered (s : IVFS) (name : Name) (h : KeysOrdered s.nameMap) :
    KeysOrdered (s.Open name).1.nameMap := by
  have hi := NameMap.index_keysOrdered s.nameMap name h
  unfold Open
  generalize s.nameMap.index name = r at hi ⊢
  obtain ⟨m, v⟩ := r
  cases v with
  | none => exact hi
  | some p =>
    simp only []
    split
    · exact hi
    · split <;> exact hi

theorem Create_keysOrdered (s : IVFS) (name : Name) (h : KeysOrdered s.nameMap) :
    KeysOrdered (s.Create name).1.nameMap := by
  have hi := NameMap.index_keysOrdered s.nameMap name h
  unfold Create
  generalize s.nameMap.index name = r at hi ⊢
  obtain ⟨m, v⟩ := r
  cases v with
  | none => exact NameMap.assign_keysOrdered _ _ _ hi
  | some p =>
    simp only []
    split
    · exact hi
    · split <;> exact hi

theorem Write_nameMap (s : IVFS) (f : Handle) (buff : List Nat) (junk : Nat → Nat) :
    (s.Write f buff junk).1.nameMap = s.nameMap := by
  cases f with
  | none => rfl
  | some p =>
    cases hp : s.heap[p]? with
    | none => simp [Write, hp]
    | some file =>
      by_cases hw : file.isOpenForWriting = true
      · by_cases hfit : (file.actSize + buff.length) % SIZE_MOD ≤ file.maxSize
        · rw [Write_eq_inplace s p file buff junk hp hw hfit]
        · rw [Write_eq_reloc s p file buff junk hp hw (by omega)]
          simp only [Read_nameMap]
      · simp [Write, hp, hw]

theorem Close_nameMap (s : IVFS) (f : Handle) : (s.Close f).nameMap = s.nameMap := by
  unfold Close
  split
  · rfl
  · split <;> rfl

theorem step_keysOrdered (s : IVFS) (call : Call) (h : KeysOrdered s.nameMap) :
    KeysOrdered (s.step call).nameMap := by
  cases call with
  | Open name => exact Open_keysOrdered s name h
  | Create name => exact Create_keysOrdered s name h
  | Read f buff len => simp only [step, Read_nameMap]; exact h
  | Write f buff junk => simp only [step, Write_nameMap]; exact h
  | Close f => simp only [step, Close_nameMap]; exact h

/-- The name map of every engine reached from an engine with ordered keys has ordered
keys; the empty engine is one. -/
theorem run_keysOrdered (calls : List Call) (s : IVFS) (h : KeysOrdered s.nameMap) :
    KeysOrdered (s.run calls).nameMap := by
  induction calls generalizing s with
  | nil => exact h
  | cons call rest ih => exact ih (s.step call) (step_keysOrdered s call h)

end IVFS

/-! ## C5: saving and loading the name map -/

namespace IVFS

theorem encodeWord_length (n : Nat) : (encodeWord n).length = 8 := by
  simp [encodeWord]

theorem decodeWord_encodeWord (n : Nat) (h : n < SIZE_MOD) : decodeWord (encodeWord n) = n := by
  have e : encodeWord n = [n / 256 ^ 0 % 256, n / 256 ^ 1 % 256, n / 256 ^ 2 % 256,
      n / 256 ^ 3 % 256, n / 256 ^ 4 % 256, n / 256 ^ 5 % 256, n / 256 ^ 6 % 256,
      n / 256 ^ 7 % 256] := rfl
  rw [e]
  simp only [decodeWord, List.foldr]
  unfold SIZE_MOD at h
  norm_num
  omega

theorem nameLt_asymm (a b : Name) (h : nameLt a b = true) : nameLt b a = false := by
  induction a generalizing b with
  | nil => cases b <;> simp_all [nameLt]
  | cons x xs ih =>
    cases b with
    | nil => simp_all [nameLt]
    | cons y ys =>
      simp only [nameLt, Bool.or_eq_true, decide_eq_true_eq, Bool.and_eq_true, beq_iff_eq] at h
      simp only [nameLt, Bool.or_eq_false_iff, decide_eq_false_iff_not, Bool.and_eq_false_imp,
        beq_iff_eq]
      rcases h with h | ⟨h1, h2⟩
      · exact ⟨by omega, fun e => by omega⟩
      · exact ⟨by omega, fun _ => ih ys h2⟩

theorem assign_of_lt_all (M : NameMap) (k : Name) (v : Handle)
    (h : ∀ e ∈ M, nameLt e.1 k = true) : M.assign k v = M ++ [(k, v)] := by
  induction M with
  | nil => rfl
  | cons e rest ih =>
    obtain ⟨k', v'⟩ := e
    have hlt : nameLt k' k = true := h (k', v') (List.mem_cons_self _ _)
    have hne : k' ≠ k := by
      intro heq
      rw [heq, nameLt_irrefl] at hlt
      cases hlt
    have hnot : nameLt k k' = false := nameLt_asymm _ _ hlt
    unfold NameMap.assign
    simp only [hne, hnot, if_false, Bool.false_eq_true, List.cons_append]
    rw [ih (fun e he => h e (List.mem_cons_of_mem _ he))]

theorem getEntries_entry (n : Nat) (k : Name) (b a m : Nat) (rest : List Nat)
    (H : List File) (M : NameMap) (hk0 : ∀ x ∈ k, x ≠ 0) (hk : k.length < SIZE_MOD)
    (hb : b < SIZE_MOD) (ha : a < SIZE_MOD) (hm : m < SIZE_MOD) :
    getEntries (n + 1)
        (encodeWord k.length ++ (k ++ (encodeWord b ++ (encodeWord a ++ (encodeWord m ++ rest)))))
        H M
      = getEntries n rest (H ++ [⟨b, a, m, false, false⟩]) (M.assign k (some H.length)) := by
  have hname : List.takeWhile (fun x => x != 0) k = k := by
    rw [List.takeWhile_eq_self_iff]
    intro x hx
    simpa using hk0 x hx
  have t1 : ∀ (w : Nat) (l : List Nat), List.take 8 (encodeWord w ++ l) = encodeWord w :=
    fun w l => List.take_left' (encodeWord_length w)
  have d1 : ∀ (w : Nat) (l : List Nat), List.drop 8 (encodeWord w ++ l) = l :=
    fun w l => List.drop_left' (encodeWord_length w)
  have d16 : ∀ (w1 w2 : Nat) (l : List Nat),
      List.drop 16 (encodeWord w1 ++ (encodeWord w2 ++ l)) = l := by
    intro w1 w2 l
    rw [← List.append_assoc]
    exact List.drop_left' (by simp [encodeWord_length])
  have d24 : ∀ (w1 w2 w3 : Nat) (l : List Nat),
      List.drop 24 (encodeWord w1 ++ (encodeWord w2 ++ (encodeWord w3 ++ l))) = l := by
    intro w1 w2 w3 l
    rw [← List.append_assoc, ← List.append_assoc]
    exact List.drop_left' (by simp [encodeWord_length])
  rw [getEntries]
  simp only [t1, d1, d16, d24, decodeWord_encodeWord _ hk, decodeWord_encodeWord _ hb,
    decodeWord_encodeWord _ ha, decodeWord_encodeWord _ hm, List.take_left, List.drop_left,
    hname, List.length_append, encodeWord_length]
  have c1 : ¬ (8 + (k.length + (8 + (8 + (8 + rest.length)))) < 8) := by omega
  have c2 : ¬ (k.length + (8 + (8 + (8 + rest.length))) < k.length) := by omega
  have c3 : ¬ (8 + (8 + (8 + rest.length)) < 24) := by omega
  simp only [c1, c2, c3, if_false]

theorem liveRecord_append (H : List File) (f : File) (M : NameMap)
    (hM : ∀ e ∈ M, ∀ p, e.2 = some p → p < H.length) :
    M.map (liveRecord (H ++ [f])) = M.map (liveRecord H) := by
  apply List.map_congr_left
  intro e he
  obtain ⟨k, v⟩ := e
  cases v with
  | none => rfl
  | some p =>
    have hp : p < H.length := hM (k, some p) he p rfl
    simp [liveRecord, List.getElem?_append_left hp]

/-- Reading back what `encodeEntries` wrote: the loop of `GetMap` succeeds and appends
the saved records, in order, to the map it started from. -/
theorem getEntries_encodeEntries (heap : List File) (l : NameMap) :
    ∀ (H : List File) (M : NameMap),
      (∀ e ∈ l, Savable heap e) →
      l.Pairwise (fun a b => nameLt a.1 b.1 = true) →
      (∀ e ∈ M, ∀ e' ∈ l, nameLt e.1 e'.1 = true) →
      (∀ e ∈ M, ∀ p, e.2 = some p → p < H.length) →
      ∃ body H' M', encodeEntries heap l = some body ∧
        getEntries l.length body H M = some (H', M') ∧
        M'.map (liveRecord H') = M.map (liveRecord H) ++ l.map (savedRecord heap) := by
  induction l with
  | nil =>
    intro H M _ _ _ _
    exact ⟨[], H, M, rfl, rfl, by simp⟩
  | cons e rest ih =>
    intro H M hs hp hlt hval
    obtain ⟨k, v⟩ := e
    obtain ⟨hk0, hk, p, f, hv, hf, hb, ha, hm⟩ := hs (k, v) (List.mem_cons_self _ _)
    simp only at hk0 hk hv
    subst hv
    rw [List.pairwise_cons] at hp
    have hM1 : M.assign k (some H.length) = M ++ [(k, some H.length)] :=
      assign_of_lt_all M k _ (fun e he => hlt e he (k, some p) (List.mem_cons_self _ _))
    obtain ⟨body, H', M', hbody, hget, hmap⟩ :=
      ih (H ++ [⟨f.beginning, f.actSize, f.maxSize, false, false⟩]) (M ++ [(k, some H.length)])
        (fun e he => hs e (List.mem_cons_of_mem _ he)) hp.2
        (by
          intro e he e' he'
          rcases List.mem_append.1 he with h | h
          · exact hlt e h e' (List.mem_cons_of_mem _ he')
          · rw [List.mem_singleton] at h
            subst h
            exact hp.1 e' he')
        (by
          intro e he q hq
          rcases List.mem_append.1 he with h | h
          · have := hval e h q hq
            simp only [List.length_append, List.length_singleton]
            omega
          · rw [List.mem_singleton] at h
            subst h
            simp only [Option.some.injEq] at hq
            simp only [List.length_append, List.length_singleton]
            omega)
    refine ⟨encodeWord k.length ++ k ++ encodeWord f.beginning ++ encodeWord f.actSize
      ++ encodeWord f.maxSize ++ body, H', M', ?_, ?_, ?_⟩
    · simp [encodeEntries, encodeEntry, hf, hbody]
    · simp only [List.length_cons, List.append_assoc]
      rw [getEntries_entry _ k _ _ _ body H M hk0 hk hb ha hm, hM1]
      exact hget
    · rw [hmap, List.map_append, liveRecord_append H _ M hval]
      simp [liveRecord, savedRecord, hf]

end IVFS

/-- C5: for every engine whose name map is non-empty, with keys in increasing order (as in every `std::map`), with fewer than `2^31` entries, each entry having a NUL-free name and pointing to
a `File` whose fields fit a `size_t`: `WriteMap` produces a byte sequence that `GetMap`
(and so the constructor, whatever the blob file holds) reads back completely, and the
loaded map lists, in the same order, the same names with the same offset, size and
capacity, each loaded `File` having both flags cleared. -/
theorem C5_save_load_roundtrip (s : IVFS) (old : List Nat)
    (hne : s.nameMap ≠ [])
    (hsorted : KeysOrdered s.nameMap)
    (hcount : s.nameMap.length < 2 ^ 31)
    (hsav : ∀ e ∈ s.nameMap, IVFS.Savable s.heap e) :
    ∃ bytes heap' m', s.WriteMap old = some bytes ∧
      IVFS.GetMap bytes = some (heap', m') ∧
      m'.map (IVFS.liveRecord heap') = s.nameMap.map (IVFS.savedRecord s.heap) ∧
      ∀ blobFile, ∃ s', IVFS.construct bytes blobFile = some s' ∧
        s'.heap = heap' ∧ s'.nameMap = m' := by
  obtain ⟨body, H', M', hbody, hget, hmap⟩ :=
    IVFS.getEntries_encodeEntries s.heap s.nameMap [] [] hsav hsorted
      (by intro e he; cases he) (by intro e he; cases he)
  have hlen0 : s.nameMap.length ≠ 0 := by
    intro h
    exact hne (List.length_eq_zero.1 h)
  have hdec : IVFS.decodeWord (IVFS.encodeWord s.nameMap.length) = s.nameMap.length :=
    IVFS.decodeWord_encodeWord _ (by unfold SIZE_MOD; omega)
  have hload : IVFS.GetMap (IVFS.encodeWord s.nameMap.length ++ body) = some (H', M') := by
    unfold IVFS.GetMap
    simp only [List.take_left' (IVFS.encodeWord_length _),
      List.drop_left' (IVFS.encodeWord_length _), hdec, List.length_append,
      IVFS.encodeWord_length]
    have c1 : ¬ (8 + body.length < 8) := by omega
    have c2 : ¬ (2 ^ 31 ≤ s.nameMap.length) := by omega
    simp only [hlen0, c1, c2, if_false]
    exact hget
  refine ⟨IVFS.encodeWord s.nameMap.length ++ body, H', M', ?_, hload, ?_, ?_⟩
  · simp [IVFS.WriteMap, hlen0, hbody]
  · simpa using hmap
  · intro blobFile
    simp [IVFS.construct, hload]

/-- Instance of `C5_save_load_roundtrip` on `twoFiles`. -/
theorem C5_save_load_roundtrip_witness :
    IVFS.twoFiles.nameMap ≠ [] ∧
    KeysOrdered IVFS.twoFiles.nameMap ∧
    IVFS.twoFiles.nameMap.length < 2 ^ 31 ∧
    (∀ e ∈ IVFS.twoFiles.nameMap, IVFS.Savable IVFS.twoFiles.heap e) ∧
    ∃ bytes heap' m', IVFS.twoFiles.WriteMap [] = some bytes ∧
      IVFS.GetMap bytes = some (heap', m') ∧
      m'.map (IVFS.liveRecord heap')
        = IVFS.twoFiles.nameMap.map (IVFS.savedRecord IVFS.twoFiles.heap) ∧
      ∀ blobFile, ∃ s', IVFS.construct bytes blobFile = some s' ∧
        s'.heap = heap' ∧ s'.nameMap = m' := by
  have h1 : IVFS.twoFiles.nameMap ≠ [] := by decide
  have h2 : KeysOrdered IVFS.twoFiles.nameMap := by
    simp [KeysOrdered, IVFS.twoFiles, nameLt]
  have h3 : IVFS.twoFiles.nameMap.length < 2 ^ 31 := by decide
  have h4 : ∀ e ∈ IVFS.twoFiles.nameMap, IVFS.Savable IVFS.twoFiles.heap e := by
    intro e he
    simp only [IVFS.twoFiles, List.mem_cons, List.mem_singleton, List.not_mem_nil,
      or_false] at he
    rcases he with rfl | rfl
    · exact ⟨by decide, by decide, 0, _, rfl, rfl, by decide, by decide, by decide⟩
    · exact ⟨by decide, by decide, 1, _, rfl, rfl, by decide, by decide, by decide⟩
  exact ⟨h1, h2, h3, h4, C5_save_load_roundtrip IVFS.twoFiles [] h1 h2 h3 h4⟩

/-! ## C11 -/

/-- The engine after `Create("a")`, `Create("b")`, `Open("b")`, a `Write` through `b` of
more than 4096 (at most 8192) bytes, `Open("a")`, `Write(a, [1])` and a `Read` through
`b` that asks for more than 4096 bytes: the byte of `a` is stored at offset 0, and the
last read came up short, so the stream has failed. -/
theorem IVFS.run_healthy_file_fail (data buff : List Nat) (junk : Nat → Nat) (len : Nat)
    (h1 : 4096 < data.length) (h2 : data.length ≤ 8192) (h3 : 4096 < len) :
    IVFS.run IVFS.empty
        [.Create [97], .Create [98], .Open [98], .Write (some 1) data junk,
          .Open [97], .Write (some 0) [1] junk, .Read (some 1) buff len] =
      ⟨[⟨0, 1, 4096, true, true⟩, ⟨8192, data.length, 8192, true, true⟩],
        [([97], some 0), ([98], some 1)],
        ⟨[1] ++ List.drop 1 (zeros 4096 ++ (data ++ zeros (8192 - data.length))), 12288, true⟩,
        12288⟩ := by
  have hrun : IVFS.run IVFS.empty
      [.Create [97], .Create [98], .Open [98], .Write (some 1) data junk,
        .Open [97], .Write (some 0) [1] junk, .Read (some 1) buff len] =
      ((((IVFS.run IVFS.empty
        [.Create [97], .Create [98], .Open [98], .Write (some 1) data junk]).Open [97]).1.Write
          (some 0) [1] junk).1.Read (some 1) buff len).1 := by
    simp [IVFS.run, IVFS.step]
  have hl : (zeros 4096 ++ (data ++ zeros (8192 - data.length))).length = 12288 := by
    simp; omega
  have hopen : ((IVFS.run IVFS.empty
        [.Create [97], .Create [98], .Open [98], .Write (some 1) data junk]).Open [97]).1 =
      ⟨[⟨0, 0, 4096, true, true⟩, ⟨8192, data.length, 8192, true, true⟩],
        [([97], some 0), ([98], some 1)],
        ⟨zeros 4096 ++ (data ++ zeros (8192 - data.length)), 12288, false⟩, 12288⟩ := by
    rw [IVFS.run_two_files_write data junk h1 h2]
    simp [IVFS.Open, NameMap.index, NameMap.find]
  have hW : (⟨[⟨0, 0, 4096, true, true⟩, ⟨8192, data.length, 8192, true, true⟩],
        [([97], some 0), ([98], some 1)],
        ⟨zeros 4096 ++ (data ++ zeros (8192 - data.length)), 12288, false⟩, 12288⟩ :
      IVFS).Write (some 0) [1] junk =
      (⟨[⟨0, 1, 4096, true, true⟩, ⟨8192, data.length, 8192, true, true⟩],
        [([97], some 0), ([98], some 1)],
        ⟨[1] ++ List.drop 1 (zeros 4096 ++ (data ++ zeros (8192 - data.length))), 1, false⟩,
        12288⟩, 1) := by
    rw [IVFS.Write_inplace_good
      ⟨[⟨0, 0, 4096, true, true⟩, ⟨8192, data.length, 8192, true, true⟩], _,
        ⟨zeros 4096 ++ (data ++ zeros (8192 - data.length)), _, false⟩, _⟩ 0
      ⟨0, 0, 4096, true, true⟩ [1] junk rfl rfl (by decide) (by simp only [hl]; omega) rfl (by simp [OFF_LIMIT])]
    simp [SIZE_MOD]
  have hl' : ([1] ++ List.drop 1 (zeros 4096 ++ (data ++ zeros (8192 - data.length)))).length
      = 12288 := by
    simp only [List.length_append, List.length_drop, hl, List.length_singleton]
  rw [hrun, hopen, hW,
    IVFS.Read_eq ⟨[⟨0, 1, 4096, true, true⟩, ⟨8192, data.length, 8192, true, true⟩], _, _, _⟩ 1
      ⟨8192, data.length, 8192, true, true⟩ _ _ rfl rfl,
    FStream.seek_good _ _ rfl (by simp [OFF_LIMIT])]
  simp only [FStream.read, List.length_take, List.length_drop, hl']
  have e1 : min (min len data.length) (12288 - 8192) = 4096 := by omega
  have e2 : (4096 != min len data.length) = true := by
    simp; omega
  simp [e1, e2]

/-- C11 fails on the code.  On an empty engine, after `Create("a")`, `Create("b")`,
`Open("b")`, a `Write` of 5000 bytes through `b`, `Open("a")`, `Write(a, [1])` and a
`Read(b, 5000)` (which comes up short and sets the stream's fail bit, never cleared by the
engine), the record of `a` is open for reading with offset 0 and size 1, the blob is
12288 bytes long and its byte at offset 0 is the `1` written; yet `Read(a, 1)` returns 0
and leaves the caller's buffer `[0]` as it was. -/
theorem C11_read_on_failed_stream :
    (IVFS.run IVFS.empty
        [.Create [97], .Create [98], .Open [98],
          .Write (some 1) (List.replicate 5000 7) (fun _ => 0),
          .Open [97], .Write (some 0) [1] (fun _ => 0),
          .Read (some 1) [] 5000]).heap[0]? = some ⟨0, 1, 4096, true, true⟩ ∧
    (IVFS.run IVFS.empty
        [.Create [97], .Create [98], .Open [98],
          .Write (some 1) (List.replicate 5000 7) (fun _ => 0),
          .Open [97], .Write (some 0) [1] (fun _ => 0),
          .Read (some 1) [] 5000]).streamToBlob.content.length = 12288 ∧
    (IVFS.run IVFS.empty
        [.Create [97], .Create [98], .Open [98],
          .Write (some 1) (List.replicate 5000 7) (fun _ => 0),
          .Open [97], .Write (some 0) [1] (fun _ => 0),
          .Read (some 1) [] 5000]).streamToBlob.content[0]? = some 1 ∧
    ((IVFS.run IVFS.empty
        [.Create [97], .Create [98], .Open [98],
          .Write (some 1) (List.replicate 5000 7) (fun _ => 0),
          .Open [97], .Write (some 0) [1] (fun _ => 0),
          .Read (some 1) [] 5000]).Read (some 0) [0] 1).2 = ([0], 0) := by
  have hl : (List.replicate 5000 7).length = 5000 := List.length_replicate _ _
  generalize List.replicate 5000 7 = data at hl ⊢
  rw [IVFS.run_healthy_file_fail data [] _ 5000 (by omega) (by omega) (by omega)]
  refine ⟨rfl, ?_, ?_, ?_⟩
  · simp; omega
  · simp
  · rw [IVFS.Read_eq
      ⟨[⟨0, 1, 4096, true, true⟩, ⟨8192, data.length, 8192, true, true⟩], _, ⟨_, _, true⟩, _⟩
      0 ⟨0, 1, 4096, true, true⟩ _ _ rfl rfl,
      FStream.seek_failed_eq _ _ rfl, FStream.read_failed_eq _ _ rfl]
    simp

/-! ## Reading on a good stream -/

/-- What `Read` does through a handle open for reading, in every state: it returns at
most `min(len, size)` bytes and leaves the records, the name map, `blobSize` and the
blob bytes unchanged.  When the blob stream is in a good state, the record's offset is
below `2^63` and `offset + min(len, size)` is at most the blob length, it returns
exactly `min(len, size)` bytes, which are the blob bytes at
`[offset, offset + min(len, size))`, placed at the start of the caller's buffer. -/
theorem IVFS.Read_result (s : IVFS) (p : Nat) (file : File) (buff : List Nat) (len : Nat)
    (hp : s.heap[p]? = some file) (hr : file.isOpenForReading = true) :
    (s.Read (some p) buff len).2.2 ≤ min len file.actSize ∧
    (s.streamToBlob.failed = false → file.beginning < OFF_LIMIT →
      file.beginning + min len file.actSize ≤ s.streamToBlob.content.length →
      (s.Read (some p) buff len).2.2 = min len file.actSize ∧
      (s.Read (some p) buff len).2.1 =
        (s.streamToBlob.content.drop file.beginning).take (min len file.actSize)
          ++ buff.drop (min len file.actSize) ∧
      ∀ i, i < min len file.actSize →
        (s.Read (some p) buff len).2.1[i]? = s.streamToBlob.content[file.beginning + i]?) ∧
    (s.Read (some p) buff len).1.heap = s.heap ∧
    (s.Read (some p) buff len).1.nameMap = s.nameMap ∧
    (s.Read (some p) buff len).1.blobSize = s.blobSize ∧
    (s.Read (some p) buff len).1.streamToBlob.content = s.streamToBlob.content := by
  refine ⟨?_, ?_, IVFS.Read_heap _ _ _ _, IVFS.Read_nameMap _ _ _ _, IVFS.Read_blobSize _ _ _ _,
    IVFS.Read_content _ _ _ _⟩
  · rw [IVFS.Read_eq s p file buff len hp hr]
    cases hf : s.streamToBlob.failed with
    | true =>
      rw [FStream.seek_failed_eq _ _ hf, FStream.read_failed_eq _ _ hf]
      exact Nat.zero_le _
    | false =>
      rcases Nat.lt_or_ge file.beginning OFF_LIMIT with hoff | hoff
      · rw [FStream.seek_good _ _ hf hoff]
        simp only [FStream.read, Bool.false_eq_true, if_false, List.length_take]
        exact Nat.min_le_left _ _
      · rw [FStream.seek_beyond _ _ hf hoff, FStream.read_failed_eq _ _ rfl]
        exact Nat.zero_le _
  · intro hgood hoff hin
    rw [IVFS.Read_eq s p file buff len hp hr, FStream.seek_good _ _ hgood hoff,
      FStream.read_good _ _ rfl hin]
    have hlen : ((s.streamToBlob.content.drop file.beginning).take
        (min len file.actSize)).length = min len file.actSize := by
      simp only [List.length_take, List.length_drop]
      omega
    simp only [hlen]
    refine ⟨trivial, trivial, ?_⟩
    intro i hi
    rw [List.getElem?_append_left (by rw [hlen]; exact hi), List.getElem?_take_of_lt hi,
      List.getElem?_drop]

/-- Instance of `Read_result` on `openFile`: two of its three bytes read. -/
theorem IVFS.Read_result_openFile :
    (IVFS.openFile.Read (some 0) [0, 0] 2).2.2 = min 2 3 ∧
    (IVFS.openFile.Read (some 0) [0, 0] 2).2.1 =
      (IVFS.openFile.streamToBlob.content.drop 0).take (min 2 3) ++ [0, 0].drop (min 2 3) ∧
    (IVFS.openFile.Read (some 0) [0, 0] 2).1.heap = IVFS.openFile.heap := by
  have hin : 0 + min 2 3 ≤ IVFS.openFile.streamToBlob.content.length := by
    simp [IVFS.openFile]
  exact ⟨((IVFS.Read_result IVFS.openFile 0 ⟨0, 3, 4096, true, true⟩ [0, 0] 2 rfl rfl).2.1
      rfl (by decide) hin).1,
    ((IVFS.Read_result IVFS.openFile 0 ⟨0, 3, 4096, true, true⟩ [0, 0] 2 rfl rfl).2.1
      rfl (by decide) hin).2.1,
    (IVFS.Read_result IVFS.openFile 0 ⟨0, 3, 4096, true, true⟩ [0, 0] 2 rfl rfl).2.2.1⟩

/-! ## C13 -/

/-- C13: `Read` through a null handle, or through a handle that is not open for
reading, returns 0, leaves the caller's buffer as it was and leaves the whole engine
state (every record, the name map, the blob stream with all its bytes, `blobSize`)
unchanged; `Write` through a null handle, or through a handle that is not open for
writing, returns 0 and leaves the whole engine state unchanged. -/
theorem C13_wrong_mode_soft_fail (s : IVFS) (buff : List Nat) (len : Nat) (data : List Nat)
    (junk : Nat → Nat) :
    s.Read none buff len = (s, buff, 0) ∧
    (∀ (p : Nat) (file : File), s.heap[p]? = some file → file.isOpenForReading = false →
      s.Read (some p) buff len = (s, buff, 0)) ∧
    s.Write none data junk = (s, 0) ∧
    (∀ (p : Nat) (file : File), s.heap[p]? = some file → file.isOpenForWriting = false →
      s.Write (some p) data junk = (s, 0)) := by
  refine ⟨rfl, ?_, rfl, ?_⟩
  · intro p file hp hr
    exact IVFS.Read_eq_closed s p file buff len hp hr
  · intro p file hp hw
    simp [IVFS.Write, hp, hw]

/-- Instance of `C13_wrong_mode_soft_fail` on `twoFiles`: its file `a` is not open for
reading and its file `bc` is not open for writing. -/
theorem C13_wrong_mode_soft_fail_witness :
    IVFS.twoFiles.heap[0]? = some ⟨0, 3, 4096, false, true⟩ ∧
    IVFS.twoFiles.Read (some 0) [5, 5] 2 = (IVFS.twoFiles, [5, 5], 0) ∧
    IVFS.twoFiles.heap[1]? = some ⟨4096, 0, 4096, true, false⟩ ∧
    IVFS.twoFiles.Write (some 1) [8] (fun _ => 0) = (IVFS.twoFiles, 0) :=
  ⟨rfl,
   (C13_wrong_mode_soft_fail IVFS.twoFiles [5, 5] 2 [8] (fun _ => 0)).2.1 0 _ rfl rfl,
   rfl,
   (C13_wrong_mode_soft_fail IVFS.twoFiles [5, 5] 2 [8] (fun _ => 0)).2.2.2 1 _ rfl rfl⟩

/-! ## C15 -/

/-- C15: `Close` through a null handle changes nothing; through a handle to a record,
whatever its flags, it leaves that record with both flags false and its offset, size
and capacity unchanged, and leaves every other record, the name map, the blob stream
and `blobSize` unchanged; closing twice gives the same state as closing once. -/
theorem C15_close_clears_flags (s : IVFS) :
    s.Close none = s ∧
    (∀ (p : Nat) (file : File), s.heap[p]? = some file →
      (s.Close (some p)).heap[p]?
          = some { file with isOpenForReading := false, isOpenForWriting := false } ∧
        (∀ (q : Nat), q ≠ p → (s.Close (some p)).heap[q]? = s.heap[q]?) ∧
        (s.Close (some p)).nameMap = s.nameMap ∧
        (s.Close (some p)).streamToBlob = s.streamToBlob ∧
        (s.Close (some p)).blobSize = s.blobSize) ∧
    (∀ (h : Handle), (s.Close h).Close h = s.Close h) := by
  have hclose : ∀ (t : IVFS) (p : Nat) (file : File), t.heap[p]? = some file →
      t.Close (some p) =
        ⟨t.heap.set p { file with isOpenForReading := false, isOpenForWriting := false },
          t.nameMap, t.streamToBlob, t.blobSize⟩ := by
    intro t p file hp
    cases file with
    | mk b a m r w =>
      cases r <;> cases w <;> simp [IVFS.Close, hp]
  refine ⟨rfl, ?_, ?_⟩
  · intro p file hp
    have hlt : p < s.heap.length := by
      rcases Nat.lt_or_ge p s.heap.length with h | h
      · exact h
      · rw [List.getElem?_eq_none h] at hp; cases hp
    rw [hclose s p file hp]
    exact ⟨List.getElem?_set_self hlt, fun q hq => List.getElem?_set_ne (Ne.symm hq),
      rfl, rfl, rfl⟩
  · intro h
    cases h with
    | none => rfl
    | some p =>
      cases hp : s.heap[p]? with
      | none =>
        have e : s.Close (some p) = s := by simp [IVFS.Close, hp]
        rw [e, e]
      | some file =>
        have hlt : p < s.heap.length := by
          rcases Nat.lt_or_ge p s.heap.length with h | h
          · exact h
          · rw [List.getElem?_eq_none h] at hp; cases hp
        rw [hclose s p file hp]
        rw [hclose _ p { file with isOpenForReading := false, isOpenForWriting := false }
          (List.getElem?_set_self hlt)]
        simp [List.set_set]

/-- Instance of `C15_close_clears_flags`: closing the file `a` of `twoFiles`. -/
theorem C15_close_clears_flags_witness :
    IVFS.twoFiles.heap[0]? = some ⟨0, 3, 4096, false, true⟩ ∧
    (IVFS.twoFiles.Close (some 0)).heap[0]? = some ⟨0, 3, 4096, false, false⟩ ∧
    (IVFS.twoFiles.Close (some 0)).Close (some 0) = IVFS.twoFiles.Close (some 0) :=
  ⟨rfl, ((C15_close_clears_flags IVFS.twoFiles).2.1 0 _ rfl).1,
    (C15_close_clears_flags IVFS.twoFiles).2.2 (some 0)⟩

/-! ## C12 -/

namespace IVFS

/-- The result of `Create` for a name that has a record. -/
theorem Create_eq_existing (s : IVFS) (name : Name) (p : Nat) (h : s.lookup name = some p) :
    s.Create name =
      match s.heap[p]? with
      | none => (s, some p)
      | some f => (⟨s.heap.set p { f with isOpenForWriting := true }, s.nameMap,
          s.streamToBlob, s.blobSize⟩, some p) := by
  have hfind : s.nameMap.find name = some (some p) := by
    unfold lookup at h
    cases hf : s.nameMap.find name with
    | none => rw [hf] at h; cases h
    | some v =>
      rw [hf] at h
      cases v with
      | none => cases h
      | some q =>
        have e : q = p := by simpa [Option.join] using h
        rw [e]
  have hidx : s.nameMap.index name = (s.nameMap, some p) := by
    simp [NameMap.index, hfind]
  unfold Create
  rw [hidx]
  simp only []
  cases hf : s.heap[p]? with
  | none => rfl
  | some f =>
    simp only []
    by_cases hw : f.isOpenForWriting = true
    · have : ({ f with isOpenForWriting := true } : File) = f := by
        cases f; simp_all
      simp [hw, this, set_eq_self_of_getElem? _ _ _ hf]
    · simp [hw]

end IVFS

/-- C12: for every name that has a record, `Create(name)` returns the pointer to that
record; the record has its write flag set and its offset, size, capacity and read
flag unchanged; every other record, the number of records, the name map, the blob
stream (every byte, the length, the position) and `blobSize` are unchanged; and a
second `Create(name)` returns the same handle and leaves the state as the first one
left it. -/
theorem C12_create_existing (s : IVFS) (name : Name) (p : Nat)
    (h : s.lookup name = some p) :
    (s.Create name).2 = some p ∧
    (∀ (f : File), s.heap[p]? = some f →
      (s.Create name).1.heap[p]? = some { f with isOpenForWriting := true }) ∧
    (∀ (q : Nat), q ≠ p → (s.Create name).1.heap[q]? = s.heap[q]?) ∧
    (s.Create name).1.heap.length = s.heap.length ∧
    (s.Create name).1.nameMap = s.nameMap ∧
    (s.Create name).1.streamToBlob = s.streamToBlob ∧
    (s.Create name).1.blobSize = s.blobSize ∧
    (s.Create name).1.Create name = s.Create name := by
  cases hf : s.heap[p]? with
  | none =>
    have e : s.Create name = (s, some p) := by
      rw [IVFS.Create_eq_existing s name p h, hf]
    rw [e]
    refine ⟨rfl, ?_, fun q _ => rfl, rfl, rfl, rfl, rfl, e⟩
    intro f hf'
    cases hf'
  | some f =>
    have hlt : p < s.heap.length := by
      rcases Nat.lt_or_ge p s.heap.length with h | h
      · exact h
      · rw [List.getElem?_eq_none h] at hf; cases hf
    have e : s.Create name = (⟨s.heap.set p { f with isOpenForWriting := true }, s.nameMap,
        s.streamToBlob, s.blobSize⟩, some p) := by
      rw [IVFS.Create_eq_existing s name p h, hf]
    have e2 : (⟨s.heap.set p { f with isOpenForWriting := true }, s.nameMap,
        s.streamToBlob, s.blobSize⟩ : IVFS).Create name =
        (⟨s.heap.set p { f with isOpenForWriting := true }, s.nameMap,
          s.streamToBlob, s.blobSize⟩, some p) := by
      rw [IVFS.Create_eq_existing
        ⟨s.heap.set p { f with isOpenForWriting := true }, s.nameMap, s.streamToBlob,
          s.blobSize⟩ name p h]
      simp only [List.getElem?_set_self hlt, List.set_set]
    rw [e]
    refine ⟨rfl, ?_, ?_, by simp, rfl, rfl, rfl, e2⟩
    · intro f' hf'
      cases hf'
      exact List.getElem?_set_self hlt
    · intro q hq
      exact List.getElem?_set_ne (Ne.symm hq)

/-- Instance of `C12_create_existing`: `Create` of the file `bc` of `twoFiles`, which
is open for reading only. -/
theorem C12_create_existing_witness :
    IVFS.twoFiles.lookup [98, 99] = some 1 ∧
    (IVFS.twoFiles.Create [98, 99]).2 = some 1 ∧
    (IVFS.twoFiles.Create [98, 99]).1.heap[1]? = some ⟨4096, 0, 4096, true, true⟩ ∧
    (IVFS.twoFiles.Create [98, 99]).1.blobSize = IVFS.twoFiles.blobSize :=
  ⟨by decide, (C12_create_existing IVFS.twoFiles [98, 99] 1 (by decide)).1,
    (C12_create_existing IVFS.twoFiles [98, 99] 1 (by decide)).2.1 _ rfl,
    (C12_create_existing IVFS.twoFiles [98, 99] 1 (by decide)).2.2.2.2.2.2.1⟩

/-! ## C14 -/

/-- C14, as stated, fails where `size + len(data)` does not fit a `size_t`.  The engine
constructed from a map file whose one entry `a` has offset 0, size `2^64 - 2` and
capacity 4096, over a blob file of 4096 zero bytes, gives the handle to that record on
`Create("a")`, open for writing.  `Write(h, [7, 7, 7])` returns 3 and stores the three
bytes at offset 0, and the record's size afterwards is 1, not its previous size plus 3. -/
theorem C14_size_wraps :
    IVFS.construct IVFS.hugeSizeMap (zeros 4096) = some IVFS.hugeSizeEngine ∧
    (IVFS.hugeSizeEngine.Create [97]).1.record (IVFS.hugeSizeEngine.Create [97]).2
      = some ⟨0, 18446744073709551614, 4096, false, true⟩ ∧
    ((IVFS.hugeSizeEngine.Create [97]).1.Write (IVFS.hugeSizeEngine.Create [97]).2 [7, 7, 7]
      (fun _ => 0)).2 = 3 ∧
    ((IVFS.hugeSizeEngine.Create [97]).1.Write (IVFS.hugeSizeEngine.Create [97]).2 [7, 7, 7]
      (fun _ => 0)).1.streamToBlob.content.take 3 = [7, 7, 7] ∧
    ((IVFS.hugeSizeEngine.Create [97]).1.Write (IVFS.hugeSizeEngine.Create [97]).2 [7, 7, 7]
      (fun _ => 0)).1.record (IVFS.hugeSizeEngine.Create [97]).2
      = some ⟨0, 1, 4096, false, true⟩ ∧
    1 ≠ 18446744073709551614 + [7, 7, 7].length := by
  have hc : (IVFS.hugeSizeEngine.Create [97]).2 = some 0 := by
    rw [IVFS.Create_hugeSizeEngine]
  refine ⟨IVFS.construct_hugeSizeMap, ?_, ?_, ?_, ?_, by decide⟩
  · rw [hc, IVFS.Create_hugeSizeEngine]; rfl
  · rw [hc, IVFS.Write_hugeSizeEngine]
  · rw [hc, IVFS.Write_hugeSizeEngine]; rfl
  · rw [hc, IVFS.Write_hugeSizeEngine]; rfl

/-- C14 (amended): for every handle to a record that is open for writing and every `data`,
`Write(h, data)` returns `len(data)`, in the in-place case and in the relocation case
alike, and the record's size afterwards is its previous size plus `len(data)` modulo
`2^64`, that is exactly the previous size plus `len(data)` whenever that sum is below
`2^64`. -/
theorem C14_write_result (s : IVFS) (p : Nat) (file : File) (data : List Nat)
    (junk : Nat → Nat) (hp : s.heap[p]? = some file) (hw : file.isOpenForWriting = true) :
    (s.Write (some p) data junk).2 = data.length ∧
    (∃ file', (s.Write (some p) data junk).1.heap[p]? = some file' ∧
      file'.actSize = (file.actSize + data.length) % SIZE_MOD ∧
      (file.actSize + data.length < SIZE_MOD →
        file'.actSize = file.actSize + data.length)) := by
  have hlt : p < s.heap.length := by
    rcases Nat.lt_or_ge p s.heap.length with h | h
    · exact h
    · rw [List.getElem?_eq_none h] at hp; cases hp
  by_cases hfit : (file.actSize + data.length) % SIZE_MOD ≤ file.maxSize
  · rw [IVFS.Write_eq_inplace s p file data junk hp hw hfit]
    exact ⟨rfl, { file with actSize := (file.actSize + data.length) % SIZE_MOD },
      List.getElem?_set_self hlt, rfl, fun h => Nat.mod_eq_of_lt h⟩
  · rw [IVFS.Write_eq_reloc s p file data junk hp hw (by omega)]
    refine ⟨rfl,
      { file with
          beginning := s.blobSize,
          maxSize := max ((data.length + file.actSize) % SIZE_MOD)
            (file.maxSize * 2 % SIZE_MOD),
          actSize := (file.actSize + data.length) % SIZE_MOD },
      ?_, rfl, fun h => Nat.mod_eq_of_lt h⟩
    simp only [IVFS.Read_heap]
    exact List.getElem?_set_self hlt

/-- Instance of `C14_write_result` on `smallFile`: five bytes written into a record of
capacity 4 (a relocation). -/
theorem C14_write_result_witness :
    IVFS.smallFile.heap[0]? = some ⟨1, 0, 4, false, true⟩ ∧
    (IVFS.smallFile.Write (some 0) [5, 6, 7, 8, 9] (fun _ => 0)).2 = [5, 6, 7, 8, 9].length ∧
    (∃ file', (IVFS.smallFile.Write (some 0) [5, 6, 7, 8, 9] (fun _ => 0)).1.heap[0]?
        = some file' ∧
      file'.actSize = (0 + [5, 6, 7, 8, 9].length) % SIZE_MOD ∧
      (0 + [5, 6, 7, 8, 9].length < SIZE_MOD →
        file'.actSize = 0 + [5, 6, 7, 8, 9].length)) :=
  ⟨rfl, C14_write_result IVFS.smallFile 0 ⟨1, 0, 4, false, true⟩ [5, 6, 7, 8, 9] (fun _ => 0)
    rfl rfl⟩

/-! ## C16 -/

namespace IVFS

theorem sizeWithin_set (heap : List File) (p : Nat) (f : File) (hf : f.actSize ≤ f.maxSize)
    (h : ∀ (q : Nat) (g : File), heap[q]? = some g → g.actSize ≤ g.maxSize) :
    ∀ (q : Nat) (g : File), (heap.set p f)[q]? = some g → g.actSize ≤ g.maxSize := by
  intro q g hq
  rw [List.getElem?_set] at hq
  by_cases hpq : p = q
  · simp only [hpq, if_true] at hq
    by_cases hlt : q < heap.length
    · simp only [hlt, if_true, Option.some.injEq] at hq
      rw [← hq]; exact hf
    · simp only [hlt, if_false] at hq
      cases hq
  · simp only [hpq, if_false] at hq
    exact h q g hq

theorem Open_sizeWithin (s : IVFS) (name : Name) (h : s.SizeWithinCapacity) :
    (s.Open name).1.SizeWithinCapacity := by
  rw [Open_eq]
  cases s.lookup name with
  | none => exact h
  | some p =>
    simp only []
    cases hf : s.heap[p]? with
    | none => exact h
    | some f => exact sizeWithin_set s.heap p _ (h p f hf) h

theorem Create_sizeWithin (s : IVFS) (name : Name) (h : s.SizeWithinCapacity) :
    (s.Create name).1.SizeWithinCapacity := by
  cases hl : s.lookup name with
  | none =>
    rw [Create_eq_new s name hl]
    intro q g hq
    simp only [] at hq
    by_cases hlt : q < s.heap.length
    · rw [List.getElem?_append_left hlt] at hq
      exact h q g hq
    · rw [List.getElem?_append_right (by omega)] at hq
      by_cases h0 : q - s.heap.length = 0
      · simp only [h0, List.getElem?_cons_zero, Option.some.injEq] at hq
        rw [← hq]
        exact Nat.zero_le _
      · rw [List.getElem?_eq_none (by simp; omega)] at hq
        cases hq
  | some p =>
    rw [Create_eq_existing s name p hl]
    cases hf : s.heap[p]? with
    | none => exact h
    | some f => exact sizeWithin_set s.heap p _ (h p f hf) h

theorem Write_sizeWithin (s : IVFS) (f : Handle) (buff : List Nat) (junk : Nat → Nat)
    (h : s.SizeWithinCapacity) : (s.Write f buff junk).1.SizeWithinCapacity := by
  cases f with
  | none => exact h
  | some p =>
    cases hp : s.heap[p]? with
    | none =>
      have e : s.Write (some p) buff junk = (s, 0) := by simp [Write, hp]
      rw [e]; exact h
    | some file =>
      by_cases hw : file.isOpenForWriting = true
      · by_cases hfit : (file.actSize + buff.length) % SIZE_MOD ≤ file.maxSize
        · rw [Write_eq_inplace s p file buff junk hp hw hfit]
          exact sizeWithin_set s.heap p _ hfit h
        · rw [Write_eq_reloc s p file buff junk hp hw (by omega)]
          intro q g hq
          simp only [Read_heap] at hq
          refine sizeWithin_set s.heap p _ ?_ h q g hq
          simp only []
          rw [Nat.add_comm buff.length file.actSize]
          exact Nat.le_max_left _ _
      · have e : s.Write (some p) buff junk = (s, 0) := by simp [Write, hp, hw]
        rw [e]; exact h

theorem Close_sizeWithin (s : IVFS) (f : Handle) (h : s.SizeWithinCapacity) :
    (s.Close f).SizeWithinCapacity := by
  cases f with
  | none => exact h
  | some p =>
    cases hp : s.heap[p]? with
    | none =>
      have e : s.Close (some p) = s := by simp [Close, hp]
      rw [e]; exact h
    | some file =>
      have e : s.Close (some p) =
          ⟨s.heap.set p { file with isOpenForReading := false, isOpenForWriting := false },
            s.nameMap, s.streamToBlob, s.blobSize⟩ := by
        cases file with
        | mk b a m r w => cases r <;> cases w <;> simp [Close, hp]
      rw [e]
      exact sizeWithin_set s.heap p _ (h p file hp) h

theorem step_sizeWithin (s : IVFS) (call : Call) (h : s.SizeWithinCapacity) :
    (s.step call).SizeWithinCapacity := by
  cases call with
  | Open name => exact Open_sizeWithin s name h
  | Create name => exact Create_sizeWithin s name h
  | Read f buff len =>
    intro q g hq
    simp only [step, Read_heap] at hq
    exact h q g hq
  | Write f buff junk => exact Write_sizeWithin s f buff junk h
  | Close f => exact Close_sizeWithin s f h

theorem run_sizeWithin (calls : List Call) (s : IVFS) (h : s.SizeWithinCapacity) :
    (s.run calls).SizeWithinCapacity := by
  induction calls generalizing s with
  | nil => exact h
  | cons call rest ih => exact ih (s.step call) (step_sizeWithin s call h)

end IVFS

/-- C16: in every state reached, by any finite sequence of `Create`, `Open`, `Read`,
`Write` and `Close` calls (with any handles and buffers), from an engine that starts
with no records (whatever its blob holds), every record satisfies `size ≤ capacity`;
more generally every call preserves this property of the records. -/
theorem C16_size_within_capacity :
    (∀ (s0 : IVFS) (calls : List IVFS.Call), s0.heap = [] →
      ∀ (p : Nat) (f : File), (s0.run calls).heap[p]? = some f → f.actSize ≤ f.maxSize) ∧
    (∀ (calls : List IVFS.Call) (p : Nat) (f : File),
      (IVFS.empty.run calls).heap[p]? = some f → f.actSize ≤ f.maxSize) ∧
    (∀ (s : IVFS) (calls : List IVFS.Call), s.SizeWithinCapacity →
      (s.run calls).SizeWithinCapacity) := by
  have h0 : ∀ (s0 : IVFS), s0.heap = [] → s0.SizeWithinCapacity := by
    intro s0 hs p f hp
    rw [hs] at hp
    cases hp
  exact ⟨fun s0 calls hs => IVFS.run_sizeWithin calls s0 (h0 s0 hs),
    fun calls => IVFS.run_sizeWithin calls IVFS.empty (h0 _ rfl),
    fun s calls h => IVFS.run_sizeWithin calls s h⟩

/-- Instance of `C16_size_within_capacity`: the record left by `Create("a")`,
`Open("a")` and a `Write` of five bytes on an empty engine. -/
theorem C16_size_within_capacity_witness :
    IVFS.empty.heap = [] ∧
    ∀ (p : Nat) (f : File),
      (IVFS.empty.run [.Create [97], .Open [97], .Write (some 0) [1, 2, 3, 4, 5]
        (fun _ => 0)]).heap[p]? = some f → f.actSize ≤ f.maxSize :=
  ⟨rfl, C16_size_within_capacity.1 IVFS.empty _ rfl⟩

/-! ## C17 -/

/-- The bytes of a fresh 4096-byte region after `d1` and then `d2` were written at its
start, as far as a read of `len(d1) + len(d2)` bytes sees them. -/
theorem take_two_overlaid (d1 d2 : List Nat) (h : d1.length + d2.length ≤ 4096) :
    List.take (d1.length + d2.length)
        (d2 ++ List.drop d2.length (d1 ++ List.drop d1.length (zeros 4096)))
      = d2 ++ d1.drop d2.length
          ++ zeros (d1.length + d2.length - max d1.length d2.length) := by
  rw [drop_zeros, List.drop_append_eq_append_drop, drop_zeros,
    List.take_append_eq_append_take, List.take_append_eq_append_take, take_zeros,
    List.take_of_length_le (by omega : d2.length ≤ d1.length + d2.length),
    List.take_of_length_le (by simp), List.append_assoc]
  congr 2
  simp only [List.length_drop]
  congr 1
  omega

/-- C17: on an empty engine, with `h = Create(n)` and the file also opened for reading
by `Open(n)` (which returns `h`), for all `d1`, `d2` with `len(d1) + len(d2) ≤ 4096`,
after `Write(h, d1)` and `Write(h, d2)` the record has offset 0, capacity 4096 and size
`len(d1) + len(d2)`, and `Read(h, len(d1) + len(d2))` returns that many bytes: `d2`,
then the bytes of `d1` from index `len(d2)` on, then zero bytes. -/
theorem C17_overwrite_at_region_start (name : Name) (d1 d2 buff : List Nat)
    (junk : Nat → Nat) (h : d1.length + d2.length ≤ 4096) :
    let c := IVFS.empty.Create name
    let o := c.1.Open name
    let w1 := o.1.Write c.2 d1 junk
    let w2 := w1.1.Write c.2 d2 junk
    o.2 = c.2 ∧
    w2.1.record c.2 = some ⟨0, d1.length + d2.length, 4096, true, true⟩ ∧
    (w2.1.Read c.2 buff (d1.length + d2.length)).2 =
      (d2 ++ d1.drop d2.length ++ zeros (d1.length + d2.length - max d1.length d2.length)
        ++ buff.drop (d1.length + d2.length), d1.length + d2.length) := by
  intro c o w1 w2
  have hc : c = (⟨[⟨0, 0, 4096, false, true⟩], [(name, some 0)],
      ⟨zeros 4096, 4096, false⟩, 4096⟩, some 0) := IVFS.Create_empty _
  have ho : o = (⟨[⟨0, 0, 4096, true, true⟩], [(name, some 0)],
      ⟨zeros 4096, 4096, false⟩, 4096⟩, some 0) := by
    simp only [o, hc]
    simp [IVFS.Open, NameMap.index, NameMap.find]
  have hm1 : (0 + d1.length) % SIZE_MOD = d1.length := by
    rw [Nat.zero_add]; exact Nat.mod_eq_of_lt (by unfold SIZE_MOD; omega)
  have hm2 : (d1.length + d2.length) % SIZE_MOD = d1.length + d2.length :=
    Nat.mod_eq_of_lt (by unfold SIZE_MOD; omega)
  have hw1 : w1 = (⟨[⟨0, d1.length, 4096, true, true⟩], [(name, some 0)],
      ⟨d1 ++ List.drop d1.length (zeros 4096), d1.length, false⟩, 4096⟩, d1.length) := by
    simp only [w1, ho, hc]
    rw [IVFS.Write_inplace_good ⟨[⟨0, 0, 4096, true, true⟩], _, ⟨zeros 4096, _, false⟩, _⟩ 0
      ⟨0, 0, 4096, true, true⟩ d1 junk rfl rfl (by simp only []; omega) (by simp) rfl (by simp [OFF_LIMIT])]
    simp only [hm1]
    simp
  have hl1 : (d1 ++ List.drop d1.length (zeros 4096)).length = 4096 := by
    simp; omega
  have hw2 : w2 = (⟨[⟨0, d1.length + d2.length, 4096, true, true⟩], [(name, some 0)],
      ⟨d2 ++ List.drop d2.length (d1 ++ List.drop d1.length (zeros 4096)), d2.length, false⟩,
      4096⟩, d2.length) := by
    simp only [w2, hw1, hc]
    rw [IVFS.Write_inplace_good
      ⟨[⟨0, d1.length, 4096, true, true⟩], _,
        ⟨d1 ++ List.drop d1.length (zeros 4096), _, false⟩, _⟩ 0
      ⟨0, d1.length, 4096, true, true⟩ d2 junk rfl rfl (by simp only []; omega)
      (by simp only [hl1]; omega) rfl (by simp [OFF_LIMIT])]
    simp only [hm2]
    simp
  have hl2 : (d2 ++ List.drop d2.length (d1 ++ List.drop d1.length (zeros 4096))).length
      = 4096 := by
    simp only [List.length_append, List.length_drop, hl1]
    omega
  refine ⟨by rw [ho, hc], by rw [hw2, hc]; rfl, ?_⟩
  rw [hw2, hc]
  rw [IVFS.Read_eq ⟨[⟨0, d1.length + d2.length, 4096, true, true⟩], _, _, _⟩ 0
    ⟨0, d1.length + d2.length, 4096, true, true⟩ _ _ rfl rfl]
  simp only [Nat.min_self]
  rw [FStream.seek_good _ _ rfl (by simp [OFF_LIMIT]), FStream.read_good _ _ rfl (by simp only [hl2]; omega)]
  simp only [List.drop_zero, take_two_overlaid d1 d2 h]
  have hlen : (d2 ++ d1.drop d2.length
      ++ zeros (d1.length + d2.length - max d1.length d2.length)).length
      = d1.length + d2.length := by
    simp only [List.length_append, List.length_drop, length_zeros]
    omega
  rw [hlen]

/-- Instance of `C17_overwrite_at_region_start`: `[1, 2, 3]` then `[9]` written to the
file `a`. -/
theorem C17_overwrite_at_region_start_witness :
    [1, 2, 3].length + [9].length ≤ 4096 ∧
    (let c := IVFS.empty.Create [97]
     let o := c.1.Open [97]
     let w1 := o.1.Write c.2 [1, 2, 3] (fun _ => 0)
     let w2 := w1.1.Write c.2 [9] (fun _ => 0)
     o.2 = c.2 ∧
     w2.1.record c.2 = some ⟨0, [1, 2, 3].length + [9].length, 4096, true, true⟩ ∧
     (w2.1.Read c.2 [] ([1, 2, 3].length + [9].length)).2 =
       ([9] ++ [1, 2, 3].drop [9].length
          ++ zeros ([1, 2, 3].length + [9].length - max [1, 2, 3].length [9].length)
          ++ ([] : List Nat).drop ([1, 2, 3].length + [9].length),
        [1, 2, 3].length + [9].length)) :=
  ⟨by decide, C17_overwrite_at_region_start [97] [1, 2, 3] [9] [] (fun _ => 0) (by decide)⟩

/-! ## C19 -/

/-- The engine after `Create("a")`, `Create("b")`, `Open("a")`, `Open("b")` and
`Write(b, [9, 9, 9])` on an empty engine. -/
theorem IVFS.run_two_open_files (junk : Nat → Nat) :
    IVFS.run IVFS.empty
        [.Create [97], .Create [98], .Open [97], .Open [98], .Write (some 1) [9, 9, 9] junk] =
      ⟨[⟨0, 0, 4096, true, true⟩, ⟨4096, 3, 4096, true, true⟩],
        [([97], some 0), ([98], some 1)],
        ⟨zeros 4096 ++ ([9, 9, 9] ++ zeros 4093), 4099, false⟩, 8192⟩ := by
  have hrun : IVFS.run IVFS.empty
      [.Create [97], .Create [98], .Open [97], .Open [98], .Write (some 1) [9, 9, 9] junk] =
      ((((IVFS.run IVFS.empty [.Create [97], .Create [98]]).Open [97]).1.Open [98]).1.Write
          (some 1) [9, 9, 9] junk).1 := by
    simp [IVFS.run, IVFS.step]
  have hopen : (((IVFS.run IVFS.empty [.Create [97], .Create [98]]).Open [97]).1.Open [98]).1 =
      ⟨[⟨0, 0, 4096, true, true⟩, ⟨4096, 0, 4096, true, true⟩],
        [([97], some 0), ([98], some 1)], ⟨zeros 4096 ++ zeros 4096, 8192, false⟩, 8192⟩ := by
    rw [IVFS.run_create_create]
    simp [IVFS.Open, NameMap.index, NameMap.find]
  have hW : (⟨[⟨0, 0, 4096, true, true⟩, ⟨4096, 0, 4096, true, true⟩],
        [([97], some 0), ([98], some 1)], ⟨zeros 4096 ++ zeros 4096, 8192, false⟩, 8192⟩ :
      IVFS).Write (some 1) [9, 9, 9] junk =
      (⟨[⟨0, 0, 4096, true, true⟩, ⟨4096, 3, 4096, true, true⟩],
        [([97], some 0), ([98], some 1)],
        ⟨zeros 4096 ++ ([9, 9, 9] ++ zeros 4093), 4099, false⟩, 8192⟩, 3) := by
    rw [IVFS.Write_inplace_good
      ⟨[⟨0, 0, 4096, true, true⟩, ⟨4096, 0, 4096, true, true⟩], _,
        ⟨zeros 4096 ++ zeros 4096, _, false⟩, _⟩ 1
      ⟨4096, 0, 4096, true, true⟩ [9, 9, 9] junk rfl rfl (by decide) (by simp) rfl (by simp [OFF_LIMIT])]
    simp only [List.take_left' (length_zeros 4096)]
    have hd : List.drop (4096 + [9, 9, 9].length) (zeros 4096 ++ zeros 4096) = zeros 4093 := by
      rw [List.drop_append_eq_append_drop, drop_zeros, drop_zeros]
      simp [zeros_zero]
    rw [hd]
    simp [SIZE_MOD]
  rw [hrun, hopen, hW]

/-- The same engine after a `Write` through `a` of more than 4096 (at most 8192) bytes:
the data was written from position 0 on, across the region of `b`. -/
theorem IVFS.write_across_neighbour (data : List Nat) (junk : Nat → Nat)
    (h1 : 4096 < data.length) (h2 : data.length ≤ 8192) :
    (⟨[⟨0, 0, 4096, true, true⟩, ⟨4096, 3, 4096, true, true⟩],
        [([97], some 0), ([98], some 1)],
        ⟨zeros 4096 ++ ([9, 9, 9] ++ zeros 4093), 4099, false⟩, 8192⟩ :
      IVFS).Write (some 0) data junk =
      (⟨[⟨8192, data.length, 8192, true, true⟩, ⟨4096, 3, 4096, true, true⟩],
        [([97], some 0), ([98], some 1)],
        ⟨data ++ zeros (8192 - data.length), 8192, false⟩, 8192⟩, data.length) := by
  have hmax : max (data.length + 0) (2 * 4096) = 8192 := by omega
  have hl : (data ++ zeros (8192 - data.length)).length = 8192 := by simp; omega
  have hc : (zeros 4096 ++ ([9, 9, 9] ++ zeros 4093)).length = 8192 := by simp
  have himg : data ++ zeros (8192 - data.length) =
      ((zeros 4096 ++ ([9, 9, 9] ++ zeros 4093)).drop 0).take 0 ++ data ++
        zeros (max (data.length + 0) (2 * 4096) - (0 + data.length)) := by
    rw [hmax]
    simp
  have hblob : data ++ zeros (8192 - data.length) =
      (zeros 4096 ++ ([9, 9, 9] ++ zeros 4093)).take (0 + 0)
        ++ (data ++ zeros (8192 - data.length)) ++
        (zeros 4096 ++ ([9, 9, 9] ++ zeros 4093)).drop
          (0 + 0 + (data ++ zeros (8192 - data.length)).length) := by
    rw [hl, List.drop_eq_nil_of_le (by rw [hc])]
    simp
  rw [IVFS.Write_reloc_open
    ⟨[⟨0, 0, 4096, true, true⟩, ⟨4096, 3, 4096, true, true⟩], _,
      ⟨zeros 4096 ++ ([9, 9, 9] ++ zeros 4093), _, false⟩, _⟩
    0 ⟨0, 0, 4096, true, true⟩ data junk
    (data ++ zeros (8192 - data.length)) (data ++ zeros (8192 - data.length))
    rfl rfl rfl rfl (by simp) (by simp only []; omega) (by simp only [SIZE_MOD]; omega)
    (by simp [SIZE_MOD]) himg hblob (by simp [OFF_LIMIT])]
  simp only [hmax, hl]
  simp

/-- C19 fails on the code.  On an empty engine, after `Create("a")`, `Create("b")`,
`Open("a")`, `Open("b")` and `Write(b, [9, 9, 9])`, the record of `b` has offset 4096
and size 3 and `Read(b, 3)` returns `9, 9, 9`.  A `Write` of 5000 bytes `7` through `a`
returns 5000 and leaves the record of `b` as it was, but it relocates `a` by writing
from position 0 on, across the region of `b`: afterwards `Read(b, 3)` returns
`7, 7, 7`. -/
theorem C19_write_corrupts_other_file :
    (IVFS.run IVFS.empty
        [.Create [97], .Create [98], .Open [97], .Open [98],
          .Write (some 1) [9, 9, 9] (fun _ => 0)]).lookup [97] = some 0 ∧
    (IVFS.run IVFS.empty
        [.Create [97], .Create [98], .Open [97], .Open [98],
          .Write (some 1) [9, 9, 9] (fun _ => 0)]).lookup [98] = some 1 ∧
    (IVFS.run IVFS.empty
        [.Create [97], .Create [98], .Open [97], .Open [98],
          .Write (some 1) [9, 9, 9] (fun _ => 0)]).heap[1]?
      = some ⟨4096, 3, 4096, true, true⟩ ∧
    ((IVFS.run IVFS.empty
        [.Create [97], .Create [98], .Open [97], .Open [98],
          .Write (some 1) [9, 9, 9] (fun _ => 0)]).Read (some 1) [] 3).2 = ([9, 9, 9], 3) ∧
    ((IVFS.run IVFS.empty
        [.Create [97], .Create [98], .Open [97], .Open [98],
          .Write (some 1) [9, 9, 9] (fun _ => 0)]).Write (some 0) (List.replicate 5000 7)
            (fun _ => 0)).2 = 5000 ∧
    ((IVFS.run IVFS.empty
        [.Create [97], .Create [98], .Open [97], .Open [98],
          .Write (some 1) [9, 9, 9] (fun _ => 0)]).Write (some 0) (List.replicate 5000 7)
            (fun _ => 0)).1.heap[1]? = some ⟨4096, 3, 4096, true, true⟩ ∧
    (((IVFS.run IVFS.empty
        [.Create [97], .Create [98], .Open [97], .Open [98],
          .Write (some 1) [9, 9, 9] (fun _ => 0)]).Write (some 0) (List.replicate 5000 7)
            (fun _ => 0)).1.Read (some 1) [] 3).2 = ([7, 7, 7], 3) := by
  rw [IVFS.run_two_open_files]
  have hl : (List.replicate 5000 7).length = 5000 := List.length_replicate _ _
  have hd : List.take 3 (List.drop 4096 (List.replicate 5000 7)) = [7, 7, 7] := by
    rw [List.drop_replicate, List.take_replicate]
    rfl
  generalize List.replicate 5000 7 = data at hl hd ⊢
  rw [IVFS.write_across_neighbour data _ (by omega) (by omega), hl]
  refine ⟨by simp [IVFS.lookup, NameMap.find], by simp [IVFS.lookup, NameMap.find], rfl, ?_,
    rfl, rfl, ?_⟩
  · rw [IVFS.Read_eq
      ⟨[⟨0, 0, 4096, true, true⟩, ⟨4096, 3, 4096, true, true⟩], _, _, _⟩ 1
      ⟨4096, 3, 4096, true, true⟩ _ _ rfl rfl,
      FStream.seek_good _ _ rfl (by simp [OFF_LIMIT]), FStream.read_good _ _ rfl (by simp)]
    simp only [Nat.min_self, List.drop_left' (length_zeros 4096)]
    simp
  · rw [IVFS.Read_eq
      ⟨[⟨8192, 5000, 8192, true, true⟩, ⟨4096, 3, 4096, true, true⟩], _, _, _⟩ 1
      ⟨4096, 3, 4096, true, true⟩ _ _ rfl rfl,
      FStream.seek_good _ _ rfl (by simp [OFF_LIMIT]), FStream.read_good _ _ rfl (by simp [hl])]
    simp only [Nat.min_self]
    rw [List.drop_append_of_le_length (by omega),
      List.take_append_of_le_length (by simp; omega), hd]
    simp

/-! ## C20 -/

/-- C20 fails on the code.  On an empty engine, after `Create("a")`, `Open("a")`, a
`Write` of 5000 bytes through `a` and `Create("b")`, the names `a` and `b` map to
different records with regions `[4096, 4096 + 8192)` and `[8192, 8192 + 4096)`: the
position 8192 lies in both. -/
theorem C20_regions_overlap :
    (IVFS.run IVFS.empty
        [.Create [97], .Open [97], .Write (some 0) (List.replicate 5000 7) (fun _ => 0),
          .Create [98]]).lookup [97] = some 0 ∧
    (IVFS.run IVFS.empty
        [.Create [97], .Open [97], .Write (some 0) (List.replicate 5000 7) (fun _ => 0),
          .Create [98]]).lookup [98] = some 1 ∧
    (IVFS.run IVFS.empty
        [.Create [97], .Open [97], .Write (some 0) (List.replicate 5000 7) (fun _ => 0),
          .Create [98]]).heap
      = [⟨4096, 5000, 8192, true, true⟩, ⟨8192, 0, 4096, false, true⟩] ∧
    (4096 ≤ 8192 ∧ 8192 < 4096 + 8192) ∧ (8192 ≤ 8192 ∧ 8192 < 8192 + 4096) := by
  have hl : (List.replicate 5000 7).length = 5000 := List.length_replicate _ _
  generalize List.replicate 5000 7 = data at hl ⊢
  have hrun : IVFS.run IVFS.empty
      [.Create [97], .Open [97], .Write (some 0) data (fun _ => 0), .Create [98]] =
      ((IVFS.run IVFS.empty
        [.Create [97], .Open [97], .Write (some 0) data (fun _ => 0)]).Create [98]).1 := by
    simp [IVFS.run, IVFS.step]
  rw [hrun, IVFS.run_create_open_write [97] data _ (by omega) (by omega),
    IVFS.Create_eq_new _ _ (by simp [IVFS.lookup, NameMap.find])]
  refine ⟨?_, ?_, ?_, by omega, by omega⟩
  · simp [IVFS.lookup, NameMap.find, NameMap.index, NameMap.assign, nameLt]
  · simp [IVFS.lookup, NameMap.find, NameMap.index, NameMap.assign, nameLt]
  · simp [hl]

end TestTask
